import Mathlib

/-!
Verification development for the screenplay parser `tsl/script/parse/parse.py`.

The Python source is shallowly embedded below.  Text is modelled as
`List Char` with Python-2 (ASCII, byte-oriented) character classes.  Python
dictionaries are modelled as association lists that keep insertion order
(a deterministic refinement of Python-2's unordered dicts; no claim below
depends on dict iteration order, and concrete runs avoid ties).  Operations
that can raise in Python (KeyError on a missing key, IndexError on an empty
list) are modelled in the `Option` monad, `none` standing for the raised
exception.  Each definition carries a reference to the source function it
embeds.
-/

set_option synthInstance.maxSize 2048

namespace TSL

/-- Parser states from `tsl.script.parse.const`: the source compares block
and line tags freely against each other (they are module-level string
constants assumed pairwise distinct), so both components of a classification
live in one inductive type. -/
inductive LType where
  | FRONT | EMPTY | ACTION | SCENE_HEADING | DIALOG | DIRECTION
  | PAGE_NUM | ERROR | CONTINUED | RESUMED | DIALOG_HEADER
  deriving DecidableEq, Repr

/-- Parser modes `STRICT` / `FUZZY` from `tsl.script.parse.const`.  The
module-level `mode` constant is imported from `const` (not under `src/`);
per the spec it is a process-wide strict-or-fuzzy switch, so the embedding
threads it as a parameter. -/
inductive Mode where
  | STRICT | FUZZY
  deriving DecidableEq, Repr

/-- Noun types from `tsl.script.parse.const`. -/
inductive NounType where
  | CHARACTER | THING | LOCATION
  deriving DecidableEq, Repr

/-- Interaction / presence types from `tsl.script.parse.const`. -/
inductive IType where
  | SETTING | DISCUSS | MENTION | APPEAR
  deriving DecidableEq, Repr

/-- A piece of Python text (a `str` of the Python-2 source). -/
abbrev Name := List Char

/-- Python-2 `re` whitespace class `\s` = `[ \t\n\r\f\v]`. -/
def pyIsSpace (c : Char) : Bool :=
  c = ' ' ∨ c = '\t' ∨ c = '\n' ∨ c = '\r' ∨ c = '\x0b' ∨ c = '\x0c'

/-- ASCII lowercase, the regex class `[a-z]`. -/
def isLowerA (c : Char) : Bool := 'a' ≤ c ∧ c ≤ 'z'

/-- ASCII uppercase, the regex class `[A-Z]`. -/
def isUpperA (c : Char) : Bool := 'A' ≤ c ∧ c ≤ 'Z'

/-- ASCII digit, the regex class `\d` = `[0-9]`. -/
def isDigitA (c : Char) : Bool := '0' ≤ c ∧ c ≤ '9'

/-- Python-2 `re` word class `\w` = `[A-Za-z0-9_]`. -/
def isWordA (c : Char) : Bool := isLowerA c ∨ isUpperA c ∨ isDigitA c ∨ c = '_'

/-- ASCII case folding used by `re.I`. -/
def toLowerA (c : Char) : Char :=
  if isUpperA c then Char.ofNat (c.toNat + 32) else c

/-- Python `$` (without `re.M`) matches at the end of the string or just
before a single newline at the end; an `^...$`-anchored pattern therefore
accepts `s` iff the newline-free core accepts `s` or, when `s` ends in a
newline, accepts `s` with that final newline removed. -/
def dollarMatch (core : List Char → Bool) (l : List Char) : Bool :=
  core l || (l.getLast? = some '\n' && core l.dropLast)

/-- `is_empty_line` (parse.py:44): `re.search(r'^\s*$', line)`; a string of
whitespace only (the `$`-before-final-newline case changes nothing because
`\n` is itself `\s`). -/
def is_empty_line (l : Name) : Bool := l.all pyIsSpace

/-- Core of the fuzzy scene-heading regex `^[^\sa-z][^a-z]+$`
(parse.py:69): one non-whitespace non-lowercase character followed by at
least one non-lowercase character.  Whitespace is itself non-lowercase, so
the character-by-character reading below is exactly the backtracking match. -/
def scene_core (l : Name) : Bool :=
  match l with
  | [] => false
  | c :: rest => !pyIsSpace c && !isLowerA c && !rest.isEmpty &&
      rest.all (fun d => !isLowerA d)

/-- Literal prefix test (`str.startswith`). -/
def starts_with : Name → Name → Bool
  | [], _ => true
  | _ :: _, [] => false
  | p :: ps, c :: cs => if p = c then starts_with ps cs else false

/-- `is_scene_header` (parse.py:52-73).  STRICT additionally requires one of
the INTERIOR/EXTERIOR/INT./EXT. prefixes; FUZZY additionally requires some
`\w` character (`re.search(r'\w', line)`). -/
def is_scene_header (m : Mode) (l : Name) : Bool :=
  match m with
  | Mode.STRICT =>
      dollarMatch scene_core l &&
        (starts_with "INTERIOR".toList l || starts_with "EXTERIOR".toList l ||
         starts_with "INT.".toList l || starts_with "EXT.".toList l)
  | Mode.FUZZY =>
      dollarMatch scene_core l && l.any isWordA

/-- `is_start_continue` (parse.py:75): `^\s*\(\s*CONTINUED\s*\)\s*$`.  The
character classes at each juncture are disjoint, so greedy left-to-right
consumption is the unique parse. -/
def is_start_continue (l : Name) : Bool :=
  match l.dropWhile pyIsSpace with
  | '(' :: t =>
      let t2 := t.dropWhile pyIsSpace
      if starts_with "CONTINUED".toList t2 then
        match (t2.drop 9).dropWhile pyIsSpace with
        | ')' :: t4 => t4.all pyIsSpace
        | _ => false
      else false
  | _ => false

/-- `is_end_continue` (parse.py:82): `^\s*CONTINUED:\s*(\(\d+\))?\s*$` or
`^\s*CONTINUED:\s*(\d+)?\s*$`. -/
def is_end_continue (l : Name) : Bool :=
  let t := l.dropWhile pyIsSpace
  if starts_with "CONTINUED:".toList t then
    match (t.drop 10).dropWhile pyIsSpace with
    | [] => true
    | '(' :: u =>
        let ds := u.takeWhile isDigitA
        (!ds.isEmpty) &&
          (match u.dropWhile isDigitA with
           | ')' :: v => v.all pyIsSpace
           | _ => false)
    | c :: u =>
        isDigitA c && ((c :: u).dropWhile isDigitA).all pyIsSpace
  else false

/-- Core of `^\s+\d+\.?$` (parse.py:91): whitespace, digits, optional
trailing period.  The three classes are disjoint, so takeWhile decomposition
is the regex match. -/
def page_num_core (l : Name) : Bool :=
  let r := l.dropWhile pyIsSpace
  let r2 := r.dropWhile isDigitA
  !(l.takeWhile pyIsSpace).isEmpty && !(r.takeWhile isDigitA).isEmpty &&
    (r2.isEmpty || r2 = ['.'])

/-- `is_page_num` (parse.py:91). -/
def is_page_num (l : Name) : Bool := dollarMatch page_num_core l

/-- Core of `^\s+[^a-z]+:$` (parse.py:98): a whitespace character, then at
least one non-lowercase character, then a colon.  Extra leading whitespace
may be absorbed by either `\s+` or `[^a-z]+` (whitespace is non-lowercase),
so the condition is: first char whitespace, last char `:`, at least one
character in between, all of them non-lowercase. -/
def direction_core (l : Name) : Bool :=
  match l with
  | [] => false
  | c :: rest => pyIsSpace c && decide (2 ≤ rest.length) &&
      rest.getLast? = some ':' && rest.dropLast.all (fun d => !isLowerA d)

/-- `is_direction` (parse.py:98). -/
def is_direction (l : Name) : Bool := dollarMatch direction_core l

/-- `is_action` (parse.py:105): `re.search(r'^[^\s]', line)`. -/
def is_action (l : Name) : Bool :=
  match l with
  | [] => false
  | c :: _ => !pyIsSpace c

/-- Core of `^\s+[^a-z]+$` (parse.py:117): a whitespace character then at
least one non-lowercase character (whitespace counts as non-lowercase). -/
def dialog_header_core (l : Name) : Bool :=
  match l with
  | [] => false
  | c :: rest => pyIsSpace c && !rest.isEmpty && rest.all (fun d => !isLowerA d)

/-- `is_dialog_header` (parse.py:117). -/
def is_dialog_header (l : Name) : Bool := dollarMatch dialog_header_core l

/-- `is_dialog` (parse.py:129): everything that does not start with a
non-whitespace character. -/
def is_dialog (l : Name) : Bool := !is_action l

/-- Python truthiness of the `next_line` argument (`False` when there is no
next line, otherwise its content; the empty string is falsy), as used in
`next_line and is_dialog_header( next_line )`. -/
def truthy_and (o : Option Name) (p : Name → Bool) : Bool :=
  match o with
  | none => false
  | some s => !s.isEmpty && p s

/-- `get_types` (parse.py:140-222).  Pure translation of the prioritized
transition rules; diagnostics are prints in the source and do not affect
the returned classification. -/
def get_types (m : Mode) (line : Name) (next_line : Option Name)
    (prior : LType × LType) : LType × LType :=
  let pb := prior.1
  let pl := prior.2
  if pb = LType.FRONT ∧ ¬ is_scene_header m line then
    if is_empty_line line then (LType.FRONT, LType.EMPTY)
    else (LType.FRONT, LType.FRONT)
  else if is_start_continue line then (pb, LType.CONTINUED)
  else if pl = LType.CONTINUED then
    if is_end_continue line then (pb, LType.RESUMED) else (pb, LType.CONTINUED)
  else if is_page_num line then (LType.PAGE_NUM, LType.PAGE_NUM)
  else if is_empty_line line then
    if pb = LType.DIALOG ∧ pl = LType.DIALOG_HEADER then
      (LType.ERROR, LType.EMPTY)
    else if pb = LType.DIALOG ∧ pl = LType.DIALOG ∧
        truthy_and next_line is_dialog_header then
      (LType.DIALOG, LType.EMPTY)
    else if pb = LType.DIALOG ∧ pl = LType.RESUMED then
      (LType.DIALOG, LType.EMPTY)
    else (LType.EMPTY, LType.EMPTY)
  else if is_direction line then
    if pl ≠ LType.EMPTY then (LType.ERROR, LType.DIRECTION)
    else (LType.DIRECTION, LType.DIRECTION)
  else if is_scene_header m line then
    if truthy_and next_line is_action ∨ pb = LType.ACTION then
      (LType.ACTION, LType.ACTION)
    else if pb = LType.EMPTY ∨ pb = LType.FRONT ∨ pl = LType.EMPTY then
      (LType.SCENE_HEADING, LType.SCENE_HEADING)
    else (LType.ERROR, LType.SCENE_HEADING)
  else if is_action line then
    if pb = LType.EMPTY ∨ pb = LType.ACTION ∨ pl = LType.EMPTY then
      (LType.ACTION, LType.ACTION)
    else (LType.ERROR, LType.ACTION)
  else if is_dialog_header line then
    if pl = LType.DIALOG ∨ pl = LType.DIALOG_HEADER then
      (LType.DIALOG, LType.DIALOG)
    else if (pb = LType.EMPTY ∨ pb = LType.DIALOG) ∧ pl = LType.EMPTY then
      (LType.DIALOG, LType.DIALOG_HEADER)
    else (LType.ERROR, LType.DIALOG_HEADER)
  else if is_dialog line then
    if pb = LType.DIALOG ∧ (pl = LType.DIALOG_HEADER ∨ pl = LType.DIALOG) then
      (LType.DIALOG, LType.DIALOG)
    else (LType.ERROR, LType.DIALOG)
  else (LType.ERROR, LType.ERROR)

lemma mem_of_getLast_eq_some {l : Name} {a : Char}
    (h : l.getLast? = some a) : a ∈ l := by
  have h2 := List.dropLast_append_getLast? a (Option.mem_def.mpr h)
  rw [← h2]
  exact List.mem_append_right _ (List.mem_singleton_self a)

/-- A direction-shaped line starts with a whitespace character and contains
a colon. -/
lemma is_direction_shape {l : Name} (h : is_direction l = true) :
    (∃ c rest, l = c :: rest ∧ pyIsSpace c = true) ∧ ':' ∈ l := by
  simp only [is_direction, dollarMatch, Bool.or_eq_true, Bool.and_eq_true,
    decide_eq_true_eq] at h
  rcases h with h | ⟨hlast, h⟩
  · cases l with
    | nil => simp [direction_core] at h
    | cons c rest =>
      simp only [direction_core, Bool.and_eq_true, decide_eq_true_eq] at h
      obtain ⟨⟨⟨hc, -⟩, hlast⟩, -⟩ := h
      refine ⟨⟨c, rest, rfl, hc⟩, ?_⟩
      exact List.mem_cons_of_mem c (mem_of_getLast_eq_some hlast)
  · have hsplit := List.dropLast_append_getLast? '\n' (Option.mem_def.mpr hlast)
    cases hd : l.dropLast with
    | nil => rw [hd] at h; simp [direction_core] at h
    | cons c rest =>
      rw [hd] at h hsplit
      simp only [direction_core, Bool.and_eq_true, decide_eq_true_eq] at h
      obtain ⟨⟨⟨hc, -⟩, hlast⟩, -⟩ := h
      constructor
      · exact ⟨c, rest ++ ['\n'], by rw [← hsplit]; rfl, hc⟩
      · have hmem : ':' ∈ c :: rest :=
          List.mem_cons_of_mem c (mem_of_getLast_eq_some hlast)
        rw [← hsplit]
        exact List.mem_append_left _ hmem

lemma scene_core_false_of_space_head {c : Char} {rest : Name}
    (hc : pyIsSpace c = true) : scene_core (c :: rest) = false := by
  simp [scene_core, hc]

/-- A direction-shaped line cannot be a scene heading (its first character
is whitespace). -/
lemma is_scene_header_false_of_direction (m : Mode) {l : Name}
    (h : is_direction l = true) : is_scene_header m l = false := by
  obtain ⟨⟨c, rest, rfl, hc⟩, -⟩ := is_direction_shape h
  have h1 : scene_core (c :: rest) = false := scene_core_false_of_space_head hc
  have h2 : scene_core ((c :: rest).dropLast) = false := by
    cases rest with
    | nil => simp [scene_core]
    | cons r rs => exact scene_core_false_of_space_head hc
  have hdm : dollarMatch scene_core (c :: rest) = false := by
    simp [dollarMatch, h1, h2]
  cases m <;> simp [is_scene_header, hdm]

/-- A direction-shaped line is not whitespace-only (it contains a colon). -/
lemma is_empty_line_false_of_direction {l : Name}
    (h : is_direction l = true) : is_empty_line l = false := by
  obtain ⟨-, hcolon⟩ := is_direction_shape h
  rw [Bool.eq_false_iff]
  intro hall
  have hsp := List.all_eq_true.mp hall ':' hcolon
  exact absurd hsp (by decide)

/-- C4 counterexample: the claim says a direction-shaped first line with
prior classification (FRONT, FRONT) is classified ERROR; on the code the
FRONT absorption rule fires first and returns (FRONT, FRONT) in either
mode. -/
theorem C4_counterexample :
    is_direction "  TEST:".toList = true ∧
    get_types Mode.STRICT "  TEST:".toList none (LType.FRONT, LType.FRONT) =
      (LType.FRONT, LType.FRONT) ∧
    get_types Mode.FUZZY "  TEST:".toList none (LType.FRONT, LType.FRONT) =
      (LType.FRONT, LType.FRONT) ∧
    (LType.FRONT, LType.FRONT) ≠ (LType.ERROR, LType.DIRECTION) := by
  decide

/-- C4 (amended): when the prior classification is (FRONT, FRONT), a line of
direction shape is absorbed into front matter and classified (FRONT, FRONT);
the direction-must-follow-EMPTY ERROR rule only applies after the parse has
left the FRONT block.  Parsing continues with the next line evaluated
against the returned (FRONT, FRONT) context. -/
theorem C4_direction_in_front (m : Mode) (line : Name) (next : Option Name)
    (h : is_direction line = true) :
    get_types m line next (LType.FRONT, LType.FRONT) =
      (LType.FRONT, LType.FRONT) := by
  have hsc := is_scene_header_false_of_direction m h
  have hemp := is_empty_line_false_of_direction h
  simp [get_types, hsc, hemp]

/-- Witness for C4_direction_in_front at a concrete direction line. -/
theorem C4_direction_in_front_witness :
    get_types Mode.STRICT "  TEST:".toList none (LType.FRONT, LType.FRONT) =
      (LType.FRONT, LType.FRONT) :=
  C4_direction_in_front Mode.STRICT _ none (by decide)

lemma is_start_continue_false_of_empty {l : Name}
    (h : is_empty_line l = true) : is_start_continue l = false := by
  have hd : l.dropWhile pyIsSpace = [] :=
    List.dropWhile_eq_nil_iff.mpr fun x hx => List.all_eq_true.mp h x hx
  simp [is_start_continue, hd]

lemma page_num_core_false_of_all_space {l : Name}
    (h : ∀ x ∈ l, pyIsSpace x = true) : page_num_core l = false := by
  have hd : l.dropWhile pyIsSpace = [] := List.dropWhile_eq_nil_iff.mpr h
  simp [page_num_core, hd]

lemma is_page_num_false_of_empty {l : Name}
    (h : is_empty_line l = true) : is_page_num l = false := by
  have h1 : ∀ x ∈ l, pyIsSpace x = true := List.all_eq_true.mp h
  have h2 : ∀ x ∈ l.dropLast, pyIsSpace x = true := fun x hx =>
    h1 x ((List.dropLast_sublist l).subset hx)
  simp [is_page_num, dollarMatch, page_num_core_false_of_all_space h1,
    page_num_core_false_of_all_space h2]

/-- The Python condition `next_line and is_dialog_header(next_line)`
(truthiness of the lookahead) coincides with "the lookahead line exists and
matches the dialog-header shape", because the empty string fails the
dialog-header shape anyway. -/
lemma truthy_and_dialog_header_iff (o : Option Name) :
    truthy_and o is_dialog_header = true ↔
      ∃ nl, o = some nl ∧ is_dialog_header nl = true := by
  cases o with
  | none => simp [truthy_and]
  | some s =>
    cases s with
    | nil =>
      simp [truthy_and, is_dialog_header, dollarMatch, dialog_header_core]
    | cons c cs => simp [truthy_and]

/-- C9: classification of a whitespace-only line when the FRONT rule, the
continuation-marker rule and the page-number rule do not apply: an error
classification directly after a DIALOG_HEADER; (DIALOG, EMPTY) after
ordinary DIALOG content with a dialog-header lookahead, or after a RESUMED
dialog line; (EMPTY, EMPTY) in every other case. -/
theorem C9_empty_line_rules (m : Mode) (line : Name) (next : Option Name)
    (pb pl : LType) (hemp : is_empty_line line = true)
    (hpb : pb ≠ LType.FRONT) (hpl : pl ≠ LType.CONTINUED) :
    ((pb = LType.DIALOG ∧ pl = LType.DIALOG_HEADER) →
        get_types m line next (pb, pl) = (LType.ERROR, LType.EMPTY)) ∧
    ((pb = LType.DIALOG ∧ pl = LType.DIALOG ∧
        (∃ nl, next = some nl ∧ is_dialog_header nl = true)) →
        get_types m line next (pb, pl) = (LType.DIALOG, LType.EMPTY)) ∧
    ((pb = LType.DIALOG ∧ pl = LType.RESUMED) →
        get_types m line next (pb, pl) = (LType.DIALOG, LType.EMPTY)) ∧
    ((¬(pb = LType.DIALOG ∧ pl = LType.DIALOG_HEADER)) →
     (¬(pb = LType.DIALOG ∧ pl = LType.DIALOG ∧
        (∃ nl, next = some nl ∧ is_dialog_header nl = true))) →
     (¬(pb = LType.DIALOG ∧ pl = LType.RESUMED)) →
        get_types m line next (pb, pl) = (LType.EMPTY, LType.EMPTY)) := by
  have hsc := is_start_continue_false_of_empty hemp
  have hpn := is_page_num_false_of_empty hemp
  refine ⟨?_, ?_, ?_, ?_⟩
  · rintro ⟨rfl, rfl⟩
    simp [get_types, hsc, hpn, hemp]
  · rintro ⟨rfl, rfl, nl, rfl, hh⟩
    cases nl with
    | nil => exact absurd hh (by decide)
    | cons c cs => simp [get_types, hsc, hpn, hemp, truthy_and, hh]
  · rintro ⟨rfl, rfl⟩
    simp [get_types, hsc, hpn, hemp]
  · intro h1 h2 h3
    simp only [get_types]
    rw [if_neg (fun hh => hpb hh.1)]
    rw [if_neg (by simp [hsc])]
    rw [if_neg hpl]
    rw [if_neg (by simp [hpn])]
    rw [if_pos hemp]
    rw [if_neg h1]
    rw [if_neg (fun hh =>
      h2 ⟨hh.1, hh.2.1, (truthy_and_dialog_header_iff next).mp hh.2.2⟩)]
    rw [if_neg h3]

/-- Witness for C9_empty_line_rules on concrete inputs. -/
theorem C9_empty_line_rules_witness :
    get_types Mode.STRICT "\n".toList none (LType.DIALOG, LType.RESUMED) =
      (LType.DIALOG, LType.EMPTY) :=
  (C9_empty_line_rules Mode.STRICT _ none LType.DIALOG LType.RESUMED
    (by decide) (by decide) (by decide)).2.2.1 ⟨rfl, rfl⟩

/-- Python `text.split('\n')`: always at least one segment; a trailing
newline yields a final empty segment. -/
def split_nl : List Char → List (List Char)
  | [] => [[]]
  | c :: rest =>
    match split_nl rest with
    | [] => [[c]]
    | g :: gs => if c = '\n' then [] :: g :: gs else (c :: g) :: gs

/-- The `enumerate` loop of `get_line_offsets` (parse.py:720-723):
cumulative `total_offset += len(line) + 1`, paired with the running line
number. -/
def line_offsets_aux : List (List Char) → Nat → Nat → List (Nat × Nat)
  | [], _, _ => []
  | s :: rest, total, ln =>
    (total + s.length + 1, ln) ::
      line_offsets_aux rest (total + s.length + 1) (ln + 1)

/-- `get_line_offsets` (parse.py:715-728).  The final `result.pop()` is
`dropLast`; the list before the pop is never empty because `split`
returns at least one segment, so the Python pop cannot raise here. -/
def get_line_offsets (text : List Char) (first_line : Nat) :
    List (Nat × Nat) :=
  (line_offsets_aux (split_nl text) 0 first_line).dropLast

/-- `get_line_for_offset` (parse.py:802-811): the first table entry whose
end offset strictly exceeds `pos`; otherwise the first entry's line with a
printed diagnostic (the `true` flag).  `none` models the IndexError of
`line_offsets[0]` on an empty table. -/
def get_line_for_offset (line_offsets : List (Nat × Nat)) (pos : Nat) :
    Option (Nat × Bool) :=
  match line_offsets.find? (fun e => decide (pos < e.1)) with
  | some e => some (e.2, false)
  | none =>
    match line_offsets.head? with
    | some e => some (e.2, true)
    | none => none

lemma split_nl_eq_singleton {text : List Char} (h : '\n' ∉ text) :
    split_nl text = [text] := by
  induction text with
  | nil => rfl
  | cons c rest ih =>
    have hc : ¬(c = '\n') := fun hh => h (hh ▸ List.mem_cons_self c rest)
    have hr : '\n' ∉ rest := fun hh => h (List.mem_cons_of_mem c hh)
    simp [split_nl, ih hr, hc]

lemma split_nl_ne_nil (text : List Char) : split_nl text ≠ [] := by
  cases text with
  | nil => simp [split_nl]
  | cons c rest =>
    simp only [split_nl]
    cases h : split_nl rest with
    | nil => simp
    | cons g gs =>
      by_cases hc : c = '\n' <;> simp [hc]

lemma split_nl_length_of_mem {text : List Char} (h : '\n' ∈ text) :
    2 ≤ (split_nl text).length := by
  induction text with
  | nil => cases h
  | cons c rest ih =>
    by_cases hc : c = '\n'
    · subst hc
      simp only [split_nl]
      cases hr : split_nl rest with
      | nil => exact absurd hr (split_nl_ne_nil rest)
      | cons g gs => simp
    · have hr : '\n' ∈ rest := by
        rcases List.mem_cons.mp h with h' | h'
        · exact absurd h'.symm hc
        · exact h'
      have h2 := ih hr
      simp only [split_nl]
      cases hg : split_nl rest with
      | nil => exact absurd hg (split_nl_ne_nil rest)
      | cons g gs =>
        rw [hg] at h2
        simp only [List.length_cons] at h2
        simp [hc]
        omega

lemma line_offsets_aux_mem {segs : List (List Char)} {t ln : Nat} :
    ∀ e ∈ line_offsets_aux segs t ln, t < e.1 ∧ ln ≤ e.2 := by
  induction segs generalizing t ln with
  | nil => intro e he; cases he
  | cons s rest ih =>
    intro e he
    rcases List.mem_cons.mp he with rfl | he'
    · exact ⟨by show t < t + s.length + 1; omega, by show ln ≤ ln; omega⟩
    · obtain ⟨h1, h2⟩ := ih e he'
      exact ⟨by omega, by omega⟩

lemma line_offsets_aux_pairwise (segs : List (List Char)) (t ln : Nat) :
    (line_offsets_aux segs t ln).Pairwise
      (fun a b => a.1 < b.1 ∧ a.2 < b.2) := by
  induction segs generalizing t ln with
  | nil => exact List.Pairwise.nil
  | cons s rest ih =>
    refine List.pairwise_cons.mpr ⟨?_, ih _ _⟩
    intro e he
    obtain ⟨h1, h2⟩ := line_offsets_aux_mem e he
    exact ⟨by dsimp; omega, by dsimp; omega⟩

lemma get_line_offsets_pairwise (text : List Char) (first_line : Nat) :
    (get_line_offsets text first_line).Pairwise
      (fun a b => a.1 < b.1 ∧ a.2 < b.2) :=
  List.Pairwise.sublist (List.dropLast_sublist _)
    (line_offsets_aux_pairwise _ 0 first_line)

lemma get_line_offsets_head {text : List Char} {first_line : Nat}
    (h : '\n' ∈ text) :
    ∃ o, (get_line_offsets text first_line).head? = some (o, first_line) := by
  have h2 := split_nl_length_of_mem h
  cases hs : split_nl text with
  | nil => exact absurd hs (split_nl_ne_nil text)
  | cons a tl =>
    cases tl with
    | nil => rw [hs] at h2; simp at h2
    | cons b rest =>
      refine ⟨a.length + 1, ?_⟩
      rw [get_line_offsets, hs]
      rw [show line_offsets_aux (a :: b :: rest) 0 first_line =
        (0 + a.length + 1, first_line) ::
          line_offsets_aux (b :: rest) (0 + a.length + 1) (first_line + 1)
        from rfl]
      rw [show line_offsets_aux (b :: rest) (0 + a.length + 1)
            (first_line + 1) =
          (0 + a.length + 1 + b.length + 1, first_line + 1) ::
            line_offsets_aux rest (0 + a.length + 1 + b.length + 1)
              (first_line + 2) from rfl]
      rw [List.dropLast_cons₂]
      simp

/-- With a table holding some entry strictly beyond `pos`, the lookup loop
returns the entry with the least line number among those beyond `pos` (the
tables produced by get_line_offsets have strictly increasing offsets and
line numbers). -/
lemma glfo_min {tbl : List (Nat × Nat)}
    (hp : tbl.Pairwise (fun a b => a.1 < b.1 ∧ a.2 < b.2))
    {pos o l : Nat} (hmem : (o, l) ∈ tbl) (hlt : pos < o) :
    ∃ r, get_line_for_offset tbl pos = some (r, false) ∧ r ≤ l ∧
      ∃ o2, (o2, r) ∈ tbl ∧ pos < o2 := by
  induction tbl with
  | nil => cases hmem
  | cons e rest ih =>
    by_cases h : pos < e.1
    · refine ⟨e.2, ?_, ?_, e.1, List.mem_cons_self e rest, h⟩
      · have hfind : (e :: rest).find? (fun x => decide (pos < x.1)) =
            some e := List.find?_cons_of_pos _ (by simpa using h)
        simp [get_line_for_offset, hfind]
      · rcases List.mem_cons.mp hmem with he | hmem'
        · rw [← he]
        · exact le_of_lt (List.rel_of_pairwise_cons hp hmem').2
    · rcases List.mem_cons.mp hmem with he | hmem'
      · exact absurd hlt (by rw [← he] at h; simpa using h)
      · obtain ⟨r, hr, hrl, o2, ho2, hpos⟩ := ih hp.of_cons hmem'
        have hfind2 : rest.find? (fun x => decide (pos < x.1)) ≠ none := by
          intro hn
          have := List.find?_eq_none.mp hn _ ho2
          simp at this
          omega
        cases hf : rest.find? (fun x => decide (pos < x.1)) with
        | none => exact absurd hf hfind2
        | some e2 =>
          rw [get_line_for_offset, hf] at hr
          refine ⟨r, ?_, hrl, o2, List.mem_cons_of_mem e ho2, hpos⟩
          have hcons : (e :: rest).find? (fun x => decide (pos < x.1)) =
              some e2 := by
            rw [List.find?_cons_of_neg _ (by simpa using h), hf]
          rw [get_line_for_offset, hcons]
          exact hr

/-- With no table entry beyond `pos`, the loop falls through: a diagnostic
is printed and the first entry's line is returned. -/
lemma glfo_fallback {tbl : List (Nat × Nat)} {pos : Nat}
    (hall : ∀ o2 l2, (o2, l2) ∈ tbl → o2 ≤ pos) {e0 : Nat × Nat}
    (h0 : tbl.head? = some e0) :
    get_line_for_offset tbl pos = some (e0.2, true) := by
  have hfind : tbl.find? (fun x => decide (pos < x.1)) = none := by
    rw [List.find?_eq_none]
    intro x hx
    simp only [decide_eq_true_eq, not_lt]
    exact hall x.1 x.2 (by rwa [Prod.mk.eta])
  rw [get_line_for_offset, hfind, h0]

/-- C8: each occurrence offset is mapped to the lowest line number in the
offset table whose recorded cumulative end offset strictly exceeds it;
when no entry exceeds the offset, a diagnostic is reported and the first
line of the range is returned as the fallback.  (The table is that of a
block whose text contains a newline; C10 records that without a newline
the table is empty and the fallback itself fails.) -/
theorem C8_offset_to_line (text : List Char) (first_line pos : Nat)
    (hnl : '\n' ∈ text) :
    (∀ o l, (o, l) ∈ get_line_offsets text first_line → pos < o →
      ∃ r, get_line_for_offset (get_line_offsets text first_line) pos =
          some (r, false) ∧ r ≤ l ∧
        ∃ o2, (o2, r) ∈ get_line_offsets text first_line ∧ pos < o2) ∧
    ((∀ o l, (o, l) ∈ get_line_offsets text first_line → o ≤ pos) →
      get_line_for_offset (get_line_offsets text first_line) pos =
        some (first_line, true)) := by
  constructor
  · intro o l hm hlt
    exact glfo_min (get_line_offsets_pairwise text first_line) hm hlt
  · intro hall
    obtain ⟨o0, hh⟩ := @get_line_offsets_head text first_line hnl
    exact glfo_fallback hall hh

/-- Witness for C8_offset_to_line on a concrete table. -/
theorem C8_offset_to_line_witness :
    ∃ r, get_line_for_offset (get_line_offsets "AB\nC".toList 7) 0 =
        some (r, false) ∧ r ≤ 7 ∧
      ∃ o2, (o2, r) ∈ get_line_offsets "AB\nC".toList 7 ∧ 0 < o2 :=
  (C8_offset_to_line "AB\nC".toList 7 0 (by decide)).1 3 7 (by decide)
    (by decide)

/-- C10: on text with no newline the single segment's entry is popped as a
presumed terminal duplicate, so get_line_offsets returns the empty table;
get_line_for_offset on the empty table can return no line number — its
first-line fallback indexes the empty table (`none` = the IndexError) —
so the joined block text must contain embedded newlines for the
offset-to-line back-mapping to be defined at all. -/
theorem C10_no_newline_empty_table (text : List Char) (first_line : Nat)
    (h : '\n' ∉ text) :
    get_line_offsets text first_line = [] ∧
    ∀ pos, get_line_for_offset ([] : List (Nat × Nat)) pos = none := by
  constructor
  · rw [get_line_offsets, split_nl_eq_singleton h]
    rfl
  · intro pos
    rfl

/-- Witness for C10_no_newline_empty_table at concrete text. -/
theorem C10_no_newline_empty_table_witness :
    get_line_offsets "ABC".toList 5 = [] ∧
    get_line_for_offset ([] : List (Nat × Nat)) 0 = none :=
  ⟨(C10_no_newline_empty_table "ABC".toList 5 (by decide)).1,
   (C10_no_newline_empty_table "ABC".toList 5 (by decide)).2 0⟩

/-- A `where` record (parse.py:364).  Scene ids are stringified integers in
the source (`str(scene_number)`); they are kept as the underlying integers
here, which preserves key distinctness and the numeric sort order used
everywhere. -/
structure WhereAt where
  scene_id : Nat
  page_no : Nat
  line_no : Nat
  deriving DecidableEq, Repr

/-- A presence (parse.py:365, built by get_presence).  `dialog_words` is
absent until the augmentation pass of compute_presence_and_interactions
sets it for DISCUSS presences.  The Python key `where` is a Lean keyword
and is rendered `whereAt`. -/
structure Presence where
  name : Name
  noun_type : NounType
  presence_type : IType
  whereAt : WhereAt
  dialog_words : Option Nat := none
  deriving DecidableEq, Repr

/-- An interaction (parse.py:366, built by get_interaction). -/
structure Interaction where
  a : Presence
  b : Presence
  whereAt : WhereAt
  interaction_type : IType
  deriving DecidableEq, Repr

/-- `get_presence` (parse.py:510-522). -/
def get_presence (noun : Name × NounType) (presence_type : IType)
    (scene_id page_no line_no : Nat) : Presence :=
  { name := noun.1, noun_type := noun.2, presence_type := presence_type,
    whereAt := { scene_id := scene_id, page_no := page_no,
                 line_no := line_no } }

/-- `get_interaction` (parse.py:855-859). -/
def get_interaction (a b : Presence) (w : WhereAt) (nature : IType) :
    Interaction :=
  { a := a, b := b, whereAt := w, interaction_type := nature }

/-- Python dict membership/read (`k in d`, `d[k]`) on an insertion-ordered
association list. -/
def alist_get {K V : Type} [DecidableEq K] : List (K × V) → K → Option V
  | [], _ => none
  | (k, v) :: rest, key => if k = key then some v else alist_get rest key

/-- Python dict write `d[key] = v`: overwrite in place, else append. -/
def alist_set {K V : Type} [DecidableEq K] :
    List (K × V) → K → V → List (K × V)
  | [], key, v => [(key, v)]
  | (k, w) :: rest, key, v =>
    if k = key then (k, v) :: rest else (k, w) :: alist_set rest key v

lemma alist_get_set_cases {K V : Type} [DecidableEq K]
    (d : List (K × V)) (key k : K) (v : V) :
    alist_get (alist_set d key v) k =
      if key = k then some v else alist_get d k := by
  induction d with
  | nil => simp [alist_set, alist_get]
  | cons kv rest ih =>
    obtain ⟨k1, v1⟩ := kv
    by_cases h1 : k1 = key
    · subst h1
      by_cases h2 : k1 = k <;> simp [alist_set, alist_get, h2]
    · by_cases h2 : k1 = k
      · subst h2
        have : ¬(key = k1) := fun hh => h1 hh.symm
        simp [alist_set, alist_get, h1, this]
      · simp [alist_set, alist_get, h1, h2, ih]

lemma alist_get_set_self {K V : Type} [DecidableEq K]
    (d : List (K × V)) (k : K) (v : V) :
    alist_get (alist_set d k v) k = some v := by
  simp [alist_get_set_cases]

/-- The per-name entry of `presence_ns` (parse.py:545-554): Python stores
the per-scene lists and the `'noun_type'` key in one dict; scene-id keys
are stringified integers and never the literal string `'noun_type'`, so
the entry splits into a record of the two disjoint parts. -/
structure PNEntry where
  noun_type : NounType
  scenes : List (Nat × List Presence)
  deriving DecidableEq, Repr

/-- The `Presences` object: the append-only log and the two noun indices
(tsl.script.Presences, used by parse.py:381-392). -/
structure PresencesSt where
  presences : List Presence := []
  presence_ns : List (Name × PNEntry) := []
  presence_sn : List (Nat × List (Name × List Presence)) := []
  deriving DecidableEq, Repr

/-- The `Interactions` object: the append-only log and the two interaction
indices (tsl.script.Interactions, used by parse.py:393-395). -/
structure InteractionsSt where
  interactions : List Interaction := []
  interaction_ns : List (Name × List (Name × List (Nat × List Interaction))) := []
  interaction_sn : List (Nat × List (Name × List (Name × List Interaction))) := []
  deriving DecidableEq, Repr

/-- `update_noun_type` (parse.py:563-576); the Bool records whether the
character-in-a-location-context error was printed. -/
def update_noun_type (old_type new_type : NounType) : NounType × Bool :=
  if (old_type = NounType.THING ∧
        (new_type = NounType.LOCATION ∨ new_type = NounType.CHARACTER)) ∨
      (old_type = NounType.LOCATION ∧ new_type = NounType.CHARACTER) then
    (new_type, false)
  else if old_type = NounType.CHARACTER ∧ new_type = NounType.LOCATION then
    (old_type, true)
  else (old_type, false)

/-- `update_presence` (parse.py:524-561): append to the log, insert into
the name-keyed index, recompute the authoritative noun type, insert into
the scene-keyed index. -/
def update_presence (P : PresencesSt) (presence : Presence) : PresencesSt :=
  let name := presence.name
  let ntype := presence.noun_type
  let scene_id := presence.whereAt.scene_id
  let ns1 :=
    match alist_get P.presence_ns name with
    | none =>
        alist_set P.presence_ns name
          { noun_type := ntype, scenes := [(scene_id, [presence])] }
    | some entry =>
        match alist_get entry.scenes scene_id with
        | none =>
            alist_set P.presence_ns name
              { entry with scenes := alist_set entry.scenes scene_id [presence] }
        | some lst =>
            alist_set P.presence_ns name
              { entry with
                scenes := alist_set entry.scenes scene_id (lst ++ [presence]) }
  let ns2 :=
    match alist_get ns1 name with
    | none => ns1
    | some entry =>
        alist_set ns1 name
          { entry with
            noun_type := (update_noun_type entry.noun_type ntype).1 }
  let sn :=
    match alist_get P.presence_sn scene_id with
    | none => alist_set P.presence_sn scene_id [(name, [presence])]
    | some m =>
        match alist_get m name with
        | none => alist_set P.presence_sn scene_id (alist_set m name [presence])
        | some lst =>
            alist_set P.presence_sn scene_id
              (alist_set m name (lst ++ [presence]))
  { presences := P.presences ++ [presence], presence_ns := ns2,
    presence_sn := sn }

/-- `_update_interaction_helper` (parse.py:841-853), with the three key
values `a[a_key]`, `b[b_key]`, `c[c_key]` already extracted (the leading
underscore of the Python name is dropped).  Every branch rewrites only the
`a_val` entry. -/
def update_interaction_helper {K1 K2 K3 : Type}
    [DecidableEq K1] [DecidableEq K2] [DecidableEq K3]
    (dictionary : List (K1 × List (K2 × List (K3 × List Interaction))))
    (a_val : K1) (b_val : K2) (c_val : K3) (interaction : Interaction) :
    List (K1 × List (K2 × List (K3 × List Interaction))) :=
  match alist_get dictionary a_val with
  | none => alist_set dictionary a_val [(b_val, [(c_val, [interaction])])]
  | some d2 =>
      match alist_get d2 b_val with
      | none =>
          alist_set dictionary a_val
            (alist_set d2 b_val [(c_val, [interaction])])
      | some d3 =>
          match alist_get d3 c_val with
          | none =>
              alist_set dictionary a_val
                (alist_set d2 b_val (alist_set d3 c_val [interaction]))
          | some lst =>
              alist_set dictionary a_val
                (alist_set d2 b_val
                  (alist_set d3 c_val (lst ++ [interaction])))

/-- `update_interaction` (parse.py:824-839).  The `a` argument is the
Python value of the first participant, which at two call sites can be the
empty dict `{}` (an unresolved scene location): the helper's `a['name']`
raises KeyError there, modelled by `none`. -/
def update_interaction (I : InteractionsSt) (a : Option Presence)
    (b : Presence) (w : WhereAt) (itype : IType) : Option InteractionsSt :=
  match a with
  | none => none
  | some a =>
      let i := get_interaction a b w itype
      let ns1 := update_interaction_helper I.interaction_ns a.name b.name
        w.scene_id i
      let ns2 := update_interaction_helper ns1 b.name a.name w.scene_id i
      let sn1 := update_interaction_helper I.interaction_sn w.scene_id a.name
        b.name i
      let sn2 := update_interaction_helper sn1 w.scene_id b.name a.name i
      some { interactions := I.interactions ++ [i], interaction_ns := ns2,
             interaction_sn := sn2 }

/-- The index path through a 3-level nested dictionary. -/
def nested3_lookup {K1 K2 K3 : Type}
    [DecidableEq K1] [DecidableEq K2] [DecidableEq K3]
    (d : List (K1 × List (K2 × List (K3 × List Interaction))))
    (x : K1) (y : K2) (z : K3) : Option (List Interaction) :=
  (alist_get d x).bind fun d2 => (alist_get d2 y).bind fun d3 =>
    alist_get d3 z

/-- The helper makes the inserted interaction reachable at its own path. -/
lemma helper_mem {K1 K2 K3 : Type}
    [DecidableEq K1] [DecidableEq K2] [DecidableEq K3]
    (d : List (K1 × List (K2 × List (K3 × List Interaction))))
    (x : K1) (y : K2) (z : K3) (i : Interaction) :
    ∃ l, nested3_lookup (update_interaction_helper d x y z i) x y z =
        some l ∧ i ∈ l := by
  unfold update_interaction_helper
  cases h1 : alist_get d x with
  | none =>
      refine ⟨[i], ?_, List.mem_singleton_self i⟩
      simp [nested3_lookup, alist_get_set_self, alist_get]
  | some d2 =>
      cases h2 : alist_get d2 y with
      | none =>
          refine ⟨[i], ?_, List.mem_singleton_self i⟩
          simp [h2, nested3_lookup, alist_get_set_self, alist_get]
      | some d3 =>
          cases h3 : alist_get d3 z with
          | none =>
              refine ⟨[i], ?_, List.mem_singleton_self i⟩
              simp [h2, h3, nested3_lookup, alist_get_set_self]
          | some lst =>
              refine ⟨lst ++ [i], ?_, List.mem_append_right _
                (List.mem_singleton_self i)⟩
              simp [h2, h3, nested3_lookup, alist_get_set_self]

/-- The helper only ever appends: whatever was reachable at any path stays
reachable (possibly inside a longer list). -/
lemma helper_preserves {K1 K2 K3 : Type}
    [DecidableEq K1] [DecidableEq K2] [DecidableEq K3]
    (d : List (K1 × List (K2 × List (K3 × List Interaction))))
    (x : K1) (y : K2) (z : K3) (j : Interaction)
    (x2 : K1) (y2 : K2) (z2 : K3) (l : List Interaction)
    (h : nested3_lookup d x2 y2 z2 = some l) :
    ∃ l2, nested3_lookup (update_interaction_helper d x y z j) x2 y2 z2 =
        some l2 ∧ ∀ i ∈ l, i ∈ l2 := by
  by_cases hx : x = x2
  · subst hx
    simp only [nested3_lookup, Option.bind_eq_some] at h
    obtain ⟨D2, hD2, D3, hD3, hz⟩ := h
    by_cases hy : y = y2
    · subst hy
      by_cases hzz : z = z2
      · subst hzz
        refine ⟨l ++ [j], ?_, fun i hi => List.mem_append_left _ hi⟩
        simp only [update_interaction_helper, hD2, hD3, hz, nested3_lookup,
          alist_get_set_self, Option.some_bind]
      · refine ⟨l, ?_, fun i hi => hi⟩
        cases h3 : alist_get D3 z with
        | none =>
            simp only [update_interaction_helper, hD2, hD3, h3,
              nested3_lookup, alist_get_set_self, Option.some_bind]
            rw [alist_get_set_cases]
            simp [hzz, hz]
        | some lst =>
            simp only [update_interaction_helper, hD2, hD3, h3,
              nested3_lookup, alist_get_set_self, Option.some_bind]
            rw [alist_get_set_cases]
            simp [hzz, hz]
    · refine ⟨l, ?_, fun i hi => hi⟩
      cases h2 : alist_get D2 y with
      | none =>
          simp only [update_interaction_helper, hD2, h2, nested3_lookup,
            alist_get_set_self, Option.some_bind]
          rw [alist_get_set_cases]
          simp [hy, hD3, hz]
      | some D3b =>
          cases h3 : alist_get D3b z with
          | none =>
              simp only [update_interaction_helper, hD2, h2, h3,
                nested3_lookup, alist_get_set_self, Option.some_bind]
              rw [alist_get_set_cases]
              simp [hy, hD3, hz]
          | some lst =>
              simp only [update_interaction_helper, hD2, h2, h3,
                nested3_lookup, alist_get_set_self, Option.some_bind]
              rw [alist_get_set_cases]
              simp [hy, hD3, hz]
  · refine ⟨l, ?_, fun i hi => hi⟩
    have hs : ∀ v, alist_get (alist_set d x v) x2 = alist_get d x2 := by
      intro v
      rw [alist_get_set_cases]
      simp [hx]
    cases h1 : alist_get d x with
    | none =>
        simp only [update_interaction_helper, h1, nested3_lookup, hs]
        simp only [nested3_lookup] at h
        exact h
    | some D2 =>
        cases h2 : alist_get D2 y with
        | none =>
            simp only [update_interaction_helper, h1, h2, nested3_lookup, hs]
            simp only [nested3_lookup] at h
            exact h
        | some D3 =>
            cases h3 : alist_get D3 z with
            | none =>
                simp only [update_interaction_helper, h1, h2, h3,
                  nested3_lookup, hs]
                simp only [nested3_lookup] at h
                exact h
            | some lst =>
                simp only [update_interaction_helper, h1, h2, h3,
                  nested3_lookup, hs]
                simp only [nested3_lookup] at h
                exact h

/-- Lookup path `presence_ns[name][scene_id]`. -/
def pns_lookup (P : PresencesSt) (name : Name) (scene_id : Nat) :
    Option (List Presence) :=
  match alist_get P.presence_ns name with
  | none => none
  | some e => alist_get e.scenes scene_id

/-- Lookup path `presence_sn[scene_id][name]`. -/
def psn_lookup (P : PresencesSt) (scene_id : Nat) (name : Name) :
    Option (List Presence) :=
  match alist_get P.presence_sn scene_id with
  | none => none
  | some m => alist_get m name

/-- Lookup path `interaction_ns[n1][n2][scene_id]`. -/
def ins_lookup (I : InteractionsSt) (n1 n2 : Name) (scene_id : Nat) :
    Option (List Interaction) :=
  nested3_lookup I.interaction_ns n1 n2 scene_id

/-- Lookup path `interaction_sn[scene_id][n1][n2]`. -/
def isn_lookup (I : InteractionsSt) (scene_id : Nat) (n1 n2 : Name) :
    Option (List Interaction) :=
  nested3_lookup I.interaction_sn scene_id n1 n2

/-- C5: noun type promotion is monotonic: update_noun_type permits only
THING→LOCATION, THING→CHARACTER and LOCATION→CHARACTER, every other
transition returns the existing type; from CHARACTER the type never
changes; a CHARACTER→LOCATION attempt keeps CHARACTER and emits the
diagnostic; and through update_presence a registry entry that is CHARACTER
stays CHARACTER. -/
theorem C5_promotion_monotonic :
    (∀ old_type new_type : NounType,
      (update_noun_type old_type new_type).1 =
        if (old_type = NounType.THING ∧
              (new_type = NounType.LOCATION ∨
               new_type = NounType.CHARACTER)) ∨
            (old_type = NounType.LOCATION ∧ new_type = NounType.CHARACTER)
        then new_type else old_type) ∧
    (∀ new_type : NounType,
      (update_noun_type NounType.CHARACTER new_type).1 =
        NounType.CHARACTER) ∧
    update_noun_type NounType.CHARACTER NounType.LOCATION =
      (NounType.CHARACTER, true) ∧
    (∀ P p entry, alist_get P.presence_ns p.name = some entry →
      entry.noun_type = NounType.CHARACTER →
      ∃ entry2,
        alist_get (update_presence P p).presence_ns p.name = some entry2 ∧
        entry2.noun_type = NounType.CHARACTER) := by
  refine ⟨?_, ?_, rfl, ?_⟩
  · intro o n
    cases o <;> cases n <;> rfl
  · intro n
    cases n <;> rfl
  · intro P p entry hget hchar
    cases hsc : alist_get entry.scenes p.whereAt.scene_id with
    | none =>
        simp only [update_presence, hget, hsc, alist_get_set_self]
        exact ⟨_, rfl, by simp only []; rw [hchar]; cases p.noun_type <;> rfl⟩
    | some lst =>
        simp only [update_presence, hget, hsc, alist_get_set_self]
        exact ⟨_, rfl, by simp only []; rw [hchar]; cases p.noun_type <;> rfl⟩

/-- Witness for C5_promotion_monotonic: a registry entry that is CHARACTER
stays CHARACTER through an update_presence carrying a LOCATION-typed
presence of the same name. -/
theorem C5_promotion_monotonic_witness :
    ∃ entry2,
      alist_get (update_presence
          (update_presence {}
            (get_presence ("JOHN".toList, NounType.CHARACTER)
              IType.DISCUSS 1 1 3))
          (get_presence ("JOHN".toList, NounType.LOCATION)
            IType.SETTING 1 1 5)).presence_ns
        (get_presence ("JOHN".toList, NounType.LOCATION)
          IType.SETTING 1 1 5).name = some entry2 ∧
      entry2.noun_type = NounType.CHARACTER :=
  C5_promotion_monotonic.2.2.2 _ _
    ⟨NounType.CHARACTER,
      [(1, [get_presence ("JOHN".toList, NounType.CHARACTER)
              IType.DISCUSS 1 1 3])]⟩
    (by decide) rfl

/-- C6: every Presence appended via update_presence ends in the append-only
log and is reachable from both the name-keyed index
(`presence_ns[name][scene_id]`) and the scene-keyed index
(`presence_sn[scene_id][name]`); every Interaction appended via
update_interaction is reachable via all four index paths —
`interaction_ns` under both participant orders and `interaction_sn` under
both participant orders, keyed by the triggering scene id. -/
theorem C6_index_consistency :
    (∀ P p, p ∈ (update_presence P p).presences ∧
      (∃ l1, pns_lookup (update_presence P p) p.name p.whereAt.scene_id =
          some l1 ∧ p ∈ l1) ∧
      (∃ l2, psn_lookup (update_presence P p) p.whereAt.scene_id p.name =
          some l2 ∧ p ∈ l2)) ∧
    (∀ I a b w t I', update_interaction I (some a) b w t = some I' →
      get_interaction a b w t ∈ I'.interactions ∧
      (∃ l, ins_lookup I' a.name b.name w.scene_id = some l ∧
        get_interaction a b w t ∈ l) ∧
      (∃ l, ins_lookup I' b.name a.name w.scene_id = some l ∧
        get_interaction a b w t ∈ l) ∧
      (∃ l, isn_lookup I' w.scene_id a.name b.name = some l ∧
        get_interaction a b w t ∈ l) ∧
      (∃ l, isn_lookup I' w.scene_id b.name a.name = some l ∧
        get_interaction a b w t ∈ l)) := by
  constructor
  · intro P p
    refine ⟨?_, ?_, ?_⟩
    · exact List.mem_append_right _ (List.mem_singleton_self p)
    · cases hg : alist_get P.presence_ns p.name with
      | none =>
          refine ⟨[p], ?_, List.mem_singleton_self p⟩
          simp [pns_lookup, update_presence, hg, alist_get_set_self,
            alist_get]
      | some entry =>
          cases hsc : alist_get entry.scenes p.whereAt.scene_id with
          | none =>
              refine ⟨[p], ?_, List.mem_singleton_self p⟩
              simp [pns_lookup, update_presence, hg, hsc,
                alist_get_set_self]
          | some lst =>
              refine ⟨lst ++ [p], ?_, List.mem_append_right _
                (List.mem_singleton_self p)⟩
              simp [pns_lookup, update_presence, hg, hsc,
                alist_get_set_self]
    · cases hg : alist_get P.presence_sn p.whereAt.scene_id with
      | none =>
          refine ⟨[p], ?_, List.mem_singleton_self p⟩
          simp [psn_lookup, update_presence, hg, alist_get_set_self,
            alist_get]
      | some m =>
          cases hn : alist_get m p.name with
          | none =>
              refine ⟨[p], ?_, List.mem_singleton_self p⟩
              simp [psn_lookup, update_presence, hg, hn,
                alist_get_set_self]
          | some lst =>
              refine ⟨lst ++ [p], ?_, List.mem_append_right _
                (List.mem_singleton_self p)⟩
              simp [psn_lookup, update_presence, hg, hn,
                alist_get_set_self]
  · intro I a b w t I' h
    simp only [update_interaction] at h
    injection h with h2
    subst h2
    refine ⟨?_, ?_, ?_, ?_, ?_⟩
    · exact List.mem_append_right _ (List.mem_singleton_self _)
    · obtain ⟨l, hl, hmem⟩ := helper_mem I.interaction_ns a.name b.name
        w.scene_id (get_interaction a b w t)
      obtain ⟨l2, hl2, hsub⟩ := helper_preserves _ b.name a.name w.scene_id
        (get_interaction a b w t) a.name b.name w.scene_id l hl
      exact ⟨l2, hl2, hsub _ hmem⟩
    · obtain ⟨l, hl, hmem⟩ := helper_mem
        (update_interaction_helper I.interaction_ns a.name b.name w.scene_id
          (get_interaction a b w t))
        b.name a.name w.scene_id (get_interaction a b w t)
      exact ⟨l, hl, hmem⟩
    · obtain ⟨l, hl, hmem⟩ := helper_mem I.interaction_sn w.scene_id a.name
        b.name (get_interaction a b w t)
      obtain ⟨l2, hl2, hsub⟩ := helper_preserves _ w.scene_id b.name a.name
        (get_interaction a b w t) w.scene_id a.name b.name l hl
      exact ⟨l2, hl2, hsub _ hmem⟩
    · obtain ⟨l, hl, hmem⟩ := helper_mem
        (update_interaction_helper I.interaction_sn w.scene_id a.name b.name
          (get_interaction a b w t))
        w.scene_id b.name a.name (get_interaction a b w t)
      exact ⟨l, hl, hmem⟩

/-- Witness for C6_index_consistency: a concrete appended interaction ends
in the log of the updated state. -/
theorem C6_index_consistency_witness :
    ∃ I', update_interaction {}
        (some (get_presence ("ALICE".toList, NounType.CHARACTER)
          IType.DISCUSS 1 1 3))
        (get_presence ("BOB".toList, NounType.CHARACTER) IType.DISCUSS 1 1 6)
        { scene_id := 1, page_no := 1, line_no := 3 } IType.DISCUSS =
          some I' ∧
      get_interaction
        (get_presence ("ALICE".toList, NounType.CHARACTER) IType.DISCUSS 1 1 3)
        (get_presence ("BOB".toList, NounType.CHARACTER) IType.DISCUSS 1 1 6)
        { scene_id := 1, page_no := 1, line_no := 3 } IType.DISCUSS ∈
        I'.interactions :=
  ⟨_, rfl, (C6_index_consistency.2 {} _ _ _ _ _ rfl).1⟩

/-- State machine counting maximal whitespace-free runs: the flag records
whether the previous character was inside a run. -/
def word_count_aux : List Char → Bool → Nat
  | [], _ => 0
  | c :: rest, in_word =>
    if pyIsSpace c then word_count_aux rest false
    else (if in_word then 0 else 1) + word_count_aux rest true

/-- Python `len(s.split())` (parse.py:340): the number of maximal
whitespace-free runs (each run counted at its first character). -/
def word_count (l : List Char) : Nat := word_count_aux l false

/-- A line record of the input stream (parse.py:250-253): `line_no`,
`page_no`, `content`. -/
structure LineRec where
  line_no : Nat
  page_no : Nat
  content : Name
  deriving DecidableEq, Repr

/-- A scene block (parse.py:241-246).  `line_types` keys are stringified
line numbers in the source, kept numeric here; `total_words` is written by
the word-count pass (the Python dict lacks the key before the pass, which
is unobservable because only the pass output is read). -/
structure Block where
  block_type : LType
  first_line : Nat
  last_line : Nat
  line_types : List (Nat × LType)
  total_words : Nat := 0
  deriving DecidableEq, Repr

/-- A scene (parse.py:234-240). -/
structure Scene where
  scene_number : Nat
  heading_line : Nat
  first_line : Nat
  last_line : Nat
  scene_blocks : List Block
  total_words : Nat := 0
  dialog_words : Nat := 0
  deriving DecidableEq, Repr

/-- The document structure built by parse_script_lines (parse.py:230-233
and 354-355): the front span, scenes keyed by scene number (stringified in
the source, numeric here), and document word counts. -/
structure ScriptStructure where
  front_first : Nat
  front_last : Nat
  scenes : List (Nat × Scene)
  total_words : Nat := 0
  dialog_words : Nat := 0
  deriving DecidableEq, Repr

/-- Python `range(a, b)` over the 0-based indices used at parse.py:339. -/
def py_range (a b : Nat) : List Nat := List.range' a (b - a)

/-- The per-line loop of the word-count pass (parse.py:339-344): sums word
counts over the block's line indices, accumulating the dialog count when
the block is DIALOG; `none` models the IndexError on an out-of-range
index. -/
def block_line_words (script_lines : List LineRec) (is_dialog : Bool) :
    List Nat → Option (Nat × Nat)
  | [] => some (0, 0)
  | idx :: rest =>
    match script_lines.get? idx with
    | none => none
    | some line =>
      match block_line_words script_lines is_dialog rest with
      | none => none
      | some (bw, dw) =>
        some (word_count line.content + bw,
          (if is_dialog then word_count line.content else 0) + dw)

/-- The per-block loop of the word-count pass (parse.py:328-347): EMPTY
blocks get total_words 0 and are skipped, other blocks get their summed
line word counts; scene totals accumulate. -/
def scene_word_counts (script_lines : List LineRec) :
    List Block → Option (List Block × Nat × Nat)
  | [] => some ([], 0, 0)
  | block :: rest =>
    if block.block_type = LType.EMPTY then
      match scene_word_counts script_lines rest with
      | none => none
      | some (bs, tw, dw) =>
        some ({ block with total_words := 0 } :: bs, tw, dw)
    else
      match block_line_words script_lines
          (block.block_type = LType.DIALOG)
          (py_range (block.first_line - 1) block.last_line) with
      | none => none
      | some (bw, dwb) =>
        match scene_word_counts script_lines rest with
        | none => none
        | some (bs, tw, dw) =>
          some ({ block with total_words := bw } :: bs, bw + tw, dwb + dw)

/-- The word-count pass of parse_script_lines (parse.py:318-355): per-scene
totals and the document totals. -/
def add_word_counts (script_lines : List LineRec) :
    List (Nat × Scene) → Option (List (Nat × Scene) × Nat × Nat)
  | [] => some ([], 0, 0)
  | (sid, scene) :: rest =>
    match scene_word_counts script_lines scene.scene_blocks with
    | none => none
    | some (bs, tw, dw) =>
      match add_word_counts script_lines rest with
      | none => none
      | some (rs, stw, sdw) =>
        let scene2 := { scene with
          scene_blocks := bs
          total_words := tw
          dialog_words := dw }
        some ((sid, scene2) :: rs, tw + stw, dw + sdw)

lemma block_line_words_dialog_le (script_lines : List LineRec)
    (is_dialog : Bool) (idxs : List Nat) (bw dw : Nat)
    (h : block_line_words script_lines is_dialog idxs = some (bw, dw)) :
    dw ≤ bw := by
  induction idxs generalizing bw dw with
  | nil =>
      simp only [block_line_words, Option.some_inj, Prod.mk.injEq] at h
      omega
  | cons idx rest ih =>
      simp only [block_line_words] at h
      cases hget : script_lines.get? idx with
      | none => rw [hget] at h; cases h
      | some line =>
          rw [hget] at h
          cases hrec : block_line_words script_lines is_dialog rest with
          | none => rw [hrec] at h; cases h
          | some p =>
              obtain ⟨bw2, dw2⟩ := p
              rw [hrec] at h
              simp only [Option.some_inj, Prod.mk.injEq] at h
              obtain ⟨h1, h2⟩ := h
              have hle := ih bw2 dw2 hrec
              cases is_dialog <;> simp at h1 h2 <;> omega

lemma scene_word_counts_spec (script_lines : List LineRec)
    (blocks : List Block) (bs : List Block) (tw dw : Nat)
    (h : scene_word_counts script_lines blocks = some (bs, tw, dw)) :
    tw = (bs.map (fun b => b.total_words)).sum ∧ dw ≤ tw := by
  induction blocks generalizing bs tw dw with
  | nil =>
      simp only [scene_word_counts, Option.some_inj, Prod.mk.injEq] at h
      obtain ⟨h1, h2, h3⟩ := h
      subst h1
      subst h2
      subst h3
      simp
  | cons block rest ih =>
      by_cases hty : block.block_type = LType.EMPTY
      · simp only [scene_word_counts, hty, if_pos] at h
        cases hrec : scene_word_counts script_lines rest with
        | none => rw [hrec] at h; cases h
        | some p =>
            obtain ⟨bs2, tw2, dw2⟩ := p
            rw [hrec] at h
            simp only [Option.some_inj, Prod.mk.injEq] at h
            obtain ⟨hbs, htw, hdw⟩ := h
            subst hbs
            subst htw
            subst hdw
            obtain ⟨hsum, hle⟩ := ih bs2 tw2 dw2 hrec
            constructor
            · simp [hsum]
            · exact hle
      · simp only [scene_word_counts, hty, if_false] at h
        cases hbl : block_line_words script_lines
            (block.block_type = LType.DIALOG)
            (py_range (block.first_line - 1) block.last_line) with
        | none => rw [hbl] at h; cases h
        | some q =>
            obtain ⟨bw, dwb⟩ := q
            rw [hbl] at h
            cases hrec : scene_word_counts script_lines rest with
            | none => rw [hrec] at h; cases h
            | some p =>
                obtain ⟨bs2, tw2, dw2⟩ := p
                rw [hrec] at h
                simp only [Option.some_inj, Prod.mk.injEq] at h
                obtain ⟨hbs, htw, hdw⟩ := h
                subst hbs
                subst htw
                subst hdw
                obtain ⟨hsum, hle⟩ := ih bs2 tw2 dw2 hrec
                have hdble := block_line_words_dialog_le _ _ _ _ _ hbl
                constructor
                · simp [hsum]
                · omega

/-- C7: after the word-count pass, the document total equals the sum of
scene totals, each scene total equals the sum of its blocks' totals (EMPTY
blocks contribute zero), and dialog_words ≤ total_words at the scene and
document level. -/
theorem C7_word_count_sums (script_lines : List LineRec)
    (scenes : List (Nat × Scene)) (out : List (Nat × Scene) × Nat × Nat)
    (h : add_word_counts script_lines scenes = some out) :
    out.2.1 = (out.1.map (fun s => s.2.total_words)).sum ∧
    out.2.2 ≤ out.2.1 ∧
    ∀ s ∈ out.1,
      s.2.total_words = (s.2.scene_blocks.map (fun b => b.total_words)).sum ∧
      s.2.dialog_words ≤ s.2.total_words := by
  induction scenes generalizing out with
  | nil =>
      simp only [add_word_counts, Option.some_inj] at h
      subst h
      simp
  | cons sc rest ih =>
      obtain ⟨sid, scene⟩ := sc
      simp only [add_word_counts] at h
      cases hsc : scene_word_counts script_lines scene.scene_blocks with
      | none => rw [hsc] at h; cases h
      | some p =>
          obtain ⟨bs, tw, dw⟩ := p
          rw [hsc] at h
          cases hrec : add_word_counts script_lines rest with
          | none => rw [hrec] at h; cases h
          | some r =>
              obtain ⟨rs, stw, sdw⟩ := r
              rw [hrec] at h
              simp only [Option.some_inj] at h
              subst h
              obtain ⟨hsum, hle⟩ := scene_word_counts_spec _ _ _ _ _ hsc
              obtain ⟨ih1, ih2, ih3⟩ := ih (rs, stw, sdw) hrec
              simp only [] at ih1 ih2
              refine ⟨?_, ?_, ?_⟩
              · simp only [List.map_cons, List.sum_cons]
                rw [ih1]
              · simp only []
                omega
              · intro s hs
                rcases List.mem_cons.mp hs with rfl | hs2
                · exact ⟨hsum, hle⟩
                · exact ih3 s hs2

/-- Witness for C7_word_count_sums on a concrete one-scene structure. -/
theorem C7_word_count_sums_witness :
    (2 : Nat) =
      ([((1 : Nat), (⟨1, 1, 1, 1,
          [⟨LType.ACTION, 1, 1, [(1, LType.ACTION)], 2⟩], 2, 0⟩ :
          Scene))].map (fun s => s.2.total_words)).sum ∧
    (0 : Nat) ≤ (2 : Nat) := by
  have h := C7_word_count_sums [⟨1, 1, "TWO WORDS\n".toList⟩]
    [(1, ⟨1, 1, 1, 1, [⟨LType.ACTION, 1, 1, [(1, LType.ACTION)], 0⟩],
      0, 0⟩)]
    ([(1, ⟨1, 1, 1, 1, [⟨LType.ACTION, 1, 1, [(1, LType.ACTION)], 2⟩],
      2, 0⟩)], 2, 0)
    (by decide)
  exact ⟨h.1, h.2.1⟩

/-- Python `str.lstrip()`. -/
def lstrip_ws (l : Name) : Name := l.dropWhile pyIsSpace

/-- Python `str.rstrip()`. -/
def rstrip_ws (l : Name) : Name := (l.reverse.dropWhile pyIsSpace).reverse

/-- Python `str.strip()`. -/
def strip_ws (l : Name) : Name := rstrip_ws (lstrip_ws l)

/-- `re.sub` of `p`-runs by single spaces (parse.py:593 with
`p = [\t ]`, parse.py:601 with `p = \s`): each maximal run of
`p`-characters becomes one space; the flag records being inside a run. -/
def collapse_runs (p : Char → Bool) : List Char → Bool → List Char
  | [], _ => []
  | c :: rest, in_run =>
    if p c then
      (if in_run then [] else [' ']) ++ collapse_runs p rest true
    else c :: collapse_runs p rest false

/-- The class `[\t ]` of parse.py:593. -/
def tab_or_space (c : Char) : Bool := c = '\t' ∨ c = ' '

/-- `strip_leading` (parse.py:763-779).  The only `remove` used is `THE`
(no regex metacharacters), so `re.match(r'^'+remove+r'\s+', name)` is: the
literal prefix followed by at least one whitespace character; on a match
the source keeps `name[len(remove)+1:]`, dropping exactly one whitespace
character; an empty or whitespace-only result restores the input. -/
def strip_leading (name remove : Name) : Name :=
  let result :=
    if starts_with remove name then
      match name.drop remove.length with
      | c :: _ =>
        if pyIsSpace c then name.drop (remove.length + 1) else []
      | [] => []
    else []
  if result.length = 0 then name
  else if result.all pyIsSpace then name
  else result

/-- `get_scene_location` (parse.py:484-508): strip a leading
INTERIOR/EXTERIOR/INT./EXT. marker, a leading dash group, everything from
the last dash group on, surrounding whitespace and a leading THE. -/
def get_scene_location (scene_heading : Name) : Name :=
  let s1 :=
    if starts_with "INTERIOR".toList scene_heading ∨
        starts_with "EXTERIOR".toList scene_heading then
      scene_heading.drop 8
    else if starts_with "INT.".toList scene_heading ∨
        starts_with "EXT.".toList scene_heading then
      scene_heading.drop 4
    else scene_heading
  let s2 :=
    match s1.dropWhile pyIsSpace with
    | '-' :: t => (t.dropWhile (fun c => c = '-')).dropWhile pyIsSpace
    | _ => s1
  let s3 := s2.dropWhile pyIsSpace
  let s4 :=
    if '-' ∈ s3 then
      ((s3.reverse.dropWhile (fun c => ¬(c = '-'))).dropWhile
        (fun c => c = '-')).reverse
    else s3
  let s5 := rstrip_ws s4
  strip_leading s5 "THE".toList

/-- Suffix after the first `)` (the end of a `\([^\)]*\)` group), when a
closing parenthesis exists. -/
def after_rparen : List Char → Option (List Char)
  | [] => none
  | c :: rest => if c = ')' then some rest else after_rparen rest

/-- `re.sub(r'\([^\)]*\)', '', s)` (parse.py:712): every parenthesized
group is dropped, an unclosed `(` is kept.  The fuel is the input length,
enough because every step consumes at least one character. -/
def remove_parens_go : Nat → List Char → List Char
  | 0, l => l
  | _, [] => []
  | fuel + 1, c :: rest =>
    if c = '(' then
      match after_rparen rest with
      | some rest2 => remove_parens_go fuel rest2
      | none => c :: remove_parens_go fuel rest
    else c :: remove_parens_go fuel rest

/-- `get_character_from_dialog_header` (parse.py:710-712). -/
def get_character_from_dialog_header (dialog_header : Name) : Name :=
  strip_ws (remove_parens_go dialog_header.length dialog_header)

/-- Whether position `pos` of `text` holds a `\w` character (out of range
counts as non-word). -/
def word_at (text : List Char) (pos : Nat) : Bool :=
  match text.get? pos with
  | some c => isWordA c
  | none => false

/-- Python `\b` at position `pos`: exactly one of the two neighbouring
positions holds a word character. -/
def boundary_at (text : List Char) (pos : Nat) : Bool :=
  (if pos = 0 then false else word_at text (pos - 1)) != word_at text pos

/-- Case-insensitive literal match of `pat` at position `i` of `text`
(the `re.escape(name)` pattern of parse.py:791 under `re.I`; ASCII case
folding of Python 2 byte strings). -/
def match_ci_at (pat text : List Char) (i : Nat) : Bool :=
  decide (pat.length + i ≤ text.length) &&
    decide (((text.drop i).take pat.length).map toLowerA =
      pat.map toLowerA)

/-- Match of the unescaped noun pattern interpolated at parse.py:795: each
pattern character consumes one text character; `.` (a regex metacharacter
left unescaped by the source) matches anything, every other character the
discovery class can produce is literal and compared case-insensitively. -/
def match_loose : List Char → List Char → Bool
  | [], _ => true
  | _ :: _, [] => false
  | p :: ps, c :: cs =>
    (decide (p = '.') || decide (toLowerA p = toLowerA c)) &&
      match_loose ps cs

/-- The scan loop of `re.finditer` for a fixed-width pattern:
non-overlapping matches, scanning left to right, a match advancing the
scan by its width (by one for a zero-width match).  The fuel
`text.length + 1` covers every start position. -/
def finditer_go (matchAt : Nat → Bool) (patLen textLen : Nat) :
    Nat → Nat → List Nat
  | 0, _ => []
  | fuel + 1, i =>
    if i ≤ textLen then
      if matchAt i then
        i :: finditer_go matchAt patLen textLen fuel (i + max patLen 1)
      else finditer_go matchAt patLen textLen fuel (i + 1)
    else []

/-- `re.finditer(r'\b' + re.escape(name) + r'\b', text, re.I)` start
offsets (parse.py:791). -/
def finditer_word_ci (pat text : List Char) : List Nat :=
  finditer_go
    (fun i => boundary_at text i && boundary_at text (i + pat.length) &&
      match_ci_at pat text i)
    pat.length text.length (text.length + 1) 0

/-- `re.finditer(r'\b' + noun + r'\b', text, re.I)` start offsets
(parse.py:795, the unescaped new-noun pattern). -/
def finditer_word_loose (pat text : List Char) : List Nat :=
  finditer_go
    (fun i => boundary_at text i && boundary_at text (i + pat.length) &&
      match_loose pat (text.drop i))
    pat.length text.length (text.length + 1) 0

/-- Stable insertion by offset: before the first entry with an equal or
larger key, matching Python's stable `sorted(..., key=lambda x: x[1])`. -/
def insert_by_offset (x : Name × Nat) :
    List (Name × Nat) → List (Name × Nat)
  | [] => [x]
  | y :: rest =>
    if x.2 ≤ y.2 then x :: y :: rest else y :: insert_by_offset x rest

/-- Stable insertion sort by offset. -/
def sort_by_offset : List (Name × Nat) → List (Name × Nat)
  | [] => []
  | x :: rest => insert_by_offset x (sort_by_offset rest)

/-- Python `set(...)` dedup, keeping first occurrences (the set's
arbitrary iteration order is modelled as first-occurrence order; no claim
depends on the relative order of distinct names at one offset). -/
def dedup_keep_first :
    List (Name × Nat) → List (Name × Nat) → List (Name × Nat)
  | [], _ => []
  | x :: rest, seen =>
    if x ∈ seen then dedup_keep_first rest seen
    else x :: dedup_keep_first rest (x :: seen)

/-- `get_name_offsets` (parse.py:781-800): every case-insensitive
whole-word occurrence of every registered name, then of every new noun
(unescaped pattern), deduplicated and ordered by increasing offset.  The
`offset` parameter of the source is never read in the body and is
omitted. -/
def get_name_offsets (presence_ns : List (Name × PNEntry)) (text : Name)
    (new_nouns : List (Name × NounType)) : List (Name × Nat) :=
  let fromNs := (presence_ns.map (fun e =>
    (finditer_word_ci e.1 text).map (fun off => (e.1, off)))).flatten
  let fromNew := (new_nouns.map (fun nn =>
    (finditer_word_loose nn.1 text).map (fun off => (nn.1, off)))).flatten
  sort_by_offset (dedup_keep_first (fromNs ++ fromNew) [])

/-- The character class `[A-Z0-9\s.\-']` of the discovery regex
(parse.py:740). -/
def noun_cls (c : Char) : Bool :=
  isUpperA c || isDigitA c || pyIsSpace c || decide (c = '.') ||
    decide (c = '-') || decide (c = '\'')

/-- Backtracking for the trailing `\b` of the discovery regex: the largest
match length `≤ maxLen` that is at least 2 and ends on a word boundary. -/
def noun_backtrack (text : List Char) (i : Nat) : Nat → Option Nat
  | 0 => none
  | len + 1 =>
    if 2 ≤ len + 1 ∧ boundary_at text (i + (len + 1)) then some (len + 1)
    else noun_backtrack text i len

/-- Length of the `\b[A-Z][A-Z0-9\s.\-']+\b` match attempt starting at
position `i`, or `none`. -/
def noun_match_len (text : List Char) (i : Nat) : Option Nat :=
  if boundary_at text i then
    match text.get? i with
    | some c =>
      if isUpperA c then
        noun_backtrack text i
          (1 + ((text.drop (i + 1)).takeWhile noun_cls).length)
      else none
    | none => none
  else none

/-- The `re.findall(r'\b[A-Z][A-Z0-9\s\.\-\']+\b', text)` scan
(parse.py:740): non-overlapping matches, left to right. -/
def findall_nouns_go (text : List Char) : Nat → Nat → List (List Char)
  | 0, _ => []
  | fuel + 1, i =>
    if i ≤ text.length then
      match noun_match_len text i with
      | some len =>
        ((text.drop i).take len) :: findall_nouns_go text fuel (i + len)
      | none => findall_nouns_go text fuel (i + 1)
    else []

def findall_nouns (text : List Char) : List (List Char) :=
  findall_nouns_go text (text.length + 1) 0

/-- `discover_nouns` (parse.py:730-761): candidate proper-noun spans,
filtered and normalized, that are not yet registered; every call site uses
the default `ntype=THING`. -/
def discover_nouns (presence_ns : List (Name × PNEntry)) (text : Name) :
    List (Name × NounType) :=
  let provisional :=
    ((findall_nouns text).filter (fun x =>
      !(strip_ws x).isEmpty && x.any isUpperA &&
      !decide (strip_ws x = "A".toList) &&
      !decide (strip_ws x = "I".toList) &&
      !decide (x.getLast? = some '\''))).map (fun x =>
        let s := strip_ws x
        let s2 :=
          if starts_with "A ".toList s ∨ starts_with "I ".toList s then
            s.drop 2
          else s
        strip_leading s2 "THE".toList)
  (provisional.filter (fun name =>
    (alist_get presence_ns name).isNone)).map (fun name =>
      (name, NounType.THING))

/-- `get_noun_type_for_name` (parse.py:813-819); every call site uses the
default `THING`. -/
def get_noun_type_for_name (presence_ns : List (Name × PNEntry))
    (name : Name) : NounType :=
  match alist_get presence_ns name with
  | some e => e.noun_type
  | none => NounType.THING

/-- `get_page_for_line` (parse.py:821-822); `none` models the IndexError
on an out-of-range line number (line numbers are 1-based per the input
contract, so the Python negative-index case does not arise). -/
def get_page_for_line (script_lines : List LineRec) (line_no : Nat) :
    Option Nat :=
  (script_lines.get? (line_no - 1)).map (fun l => l.page_no)

/-- Modelled from the spec: the general-purpose sentence segmentation
service (nltk `sent_tokenize`) is out of core scope, "treated as an opaque
capability the core calls into" (spec section 1); the embedding is
parametrized over it.  `seg_whole` is its concrete behavior on text
without sentence-ending punctuation: the whole text as one sentence. -/
abbrev Segmenter := List Char → List (List Char)

def seg_whole : Segmenter := fun t => [t]

/-- The per-occurrence loop of parse.py:621-633: map the occurrence offset
back to a line, build the presence with the current authoritative noun
type, register it, and SETTING-link it to the ambient scene location. -/
def upail_names_go (script_lines : List LineRec) (scene_id : Nat)
    (scene_location : Option Presence) (presence_type : IType)
    (line_offsets : List (Nat × Nat)) (prior_offset : Nat) :
    List (Name × Nat) → PresencesSt → InteractionsSt →
    Option (PresencesSt × InteractionsSt × List Presence)
  | [], P, I => some (P, I, [])
  | (name, off) :: rest, P, I =>
    match get_line_for_offset line_offsets (prior_offset + off) with
    | none => none
    | some (line_no, _) =>
      match get_page_for_line script_lines line_no with
      | none => none
      | some page_no =>
        let presence := get_presence
          (name, get_noun_type_for_name P.presence_ns name)
          presence_type scene_id page_no line_no
        match update_interaction I scene_location presence presence.whereAt
            IType.SETTING with
        | none => none
        | some I2 =>
          match upail_names_go script_lines scene_id scene_location
              presence_type line_offsets prior_offset rest
              (update_presence P presence) I2 with
          | none => none
          | some (P3, I3, ps) => some (P3, I3, presence :: ps)

/-- `itertools.combinations(l, 2)` in order. -/
def combinations2 {α : Type} : List α → List (α × α)
  | [] => []
  | x :: xs => (xs.map (fun y => (x, y))) ++ combinations2 xs

/-- The pairwise loop of parse.py:635-636 (always APPEAR). -/
def upail_pairs_go :
    List (Presence × Presence) → InteractionsSt → Option InteractionsSt
  | [], I => some I
  | (p1, p2) :: rest, I =>
    match update_interaction I (some p1) p2 p1.whereAt IType.APPEAR with
    | none => none
    | some I2 => upail_pairs_go rest I2

/-- The mode branch of parse.py:607-613: noun discovery runs only in
FUZZY mode. -/
def mode_nouns (m : Mode) (presence_ns : List (Name × PNEntry))
    (sent : List Char) : List (Name × NounType) :=
  match m with
  | Mode.FUZZY => discover_nouns presence_ns sent
  | Mode.STRICT => []

/-- The sentence loop of parse.py:604-638. -/
def upail_sents_go (m : Mode) (script_lines : List LineRec) (scene_id : Nat)
    (scene_location : Option Presence) (presence_type : IType)
    (line_offsets : List (Nat × Nat)) :
    List (List Char) → PresencesSt → InteractionsSt → Nat →
    Option (PresencesSt × InteractionsSt × List Presence)
  | [], P, I, _ => some (P, I, [])
  | sent :: rest, P, I, prior_offset =>
    let name_offsets := get_name_offsets P.presence_ns sent
      (mode_nouns m P.presence_ns sent)
    match upail_names_go script_lines scene_id scene_location presence_type
        line_offsets prior_offset name_offsets P I with
    | none => none
    | some (P2, I2, sent_presences) =>
      match upail_pairs_go (combinations2 sent_presences) I2 with
      | none => none
      | some I3 =>
        match upail_sents_go m script_lines scene_id scene_location
            presence_type line_offsets rest P2 I3
            (prior_offset + sent.length + 1) with
        | none => none
        | some (P4, I4, ps) => some (P4, I4, sent_presences ++ ps)

/-- `update_presence_and_interactions_for_lines` (parse.py:578-640).
`m` is the module-level mode this function reads (the `parse_mode` local
of compute_presence_and_interactions is a distinct Python local that never
reaches it); `seg` is the external segmentation capability.  `none` models
the uncaught exceptions of the source (IndexError of get_line_for_offset
on an empty table, KeyError of an empty `scene_location` dict inside
update_interaction, IndexError of a bad line index). -/
def update_presence_and_interactions_for_lines (m : Mode) (seg : Segmenter)
    (P : PresencesSt) (I : InteractionsSt) (script_lines : List LineRec)
    (first_line last_line : Nat) (scene_id : Nat)
    (scene_location : Option Presence) (presence_type : IType) :
    Option (PresencesSt × InteractionsSt × List Presence) :=
  let text := (((script_lines.drop (first_line - 1)).take
    (last_line - (first_line - 1))).map (fun l => l.content)).flatten
  let text1 := collapse_runs tab_or_space text false
  let line_offsets := get_line_offsets text1 first_line
  let text2 := collapse_runs pyIsSpace text1 false
  upail_sents_go m script_lines scene_id scene_location presence_type
    line_offsets (seg text2) P I 0

/-- The speaker-to-mentioned-noun loop of parse.py:677-678 and 697-698. -/
def mention_links (prior : Presence) :
    List Presence → InteractionsSt → Option InteractionsSt
  | [], I => some I
  | thing :: rest, I =>
    match update_interaction I (some prior) thing thing.whereAt
        IType.MENTION with
    | none => none
    | some I2 => mention_links prior rest I2

/-- The running state of the dialog-header loop (parse.py:650-654). -/
structure DlgSt where
  P : PresencesSt
  I : InteractionsSt
  speakers : List Presence
  running : Bool
  prior : Option Presence
  firstd : Nat
  lastd : Nat

/-- The `if running_dialog:` body (parse.py:672-679 and 692-698): process
the finished dialog run with presence type MENTION and link everything it
found to the previous speaker. -/
def dialog_run_flush (m : Mode) (seg : Segmenter)
    (script_lines : List LineRec) (scene_id : Nat)
    (scene_location : Option Presence) (st : DlgSt) : Option DlgSt :=
  match update_presence_and_interactions_for_lines m seg st.P st.I
      script_lines st.firstd st.lastd scene_id scene_location
      IType.MENTION with
  | none => none
  | some (P2, I2, mentioned) =>
    match st.prior with
    | none => some { st with P := P2, I := I2, running := false }
    | some pr =>
      match mention_links pr mentioned I2 with
      | none => none
      | some I3 => some { st with P := P2, I := I3, running := false }

/-- The dialog-header / dialog-line loop of parse.py:657-689, over the
block's line types in increasing line order. -/
def dialog_lines_go (m : Mode) (seg : Segmenter)
    (script_lines : List LineRec) (scene_id : Nat)
    (scene_location : Option Presence) :
    List (Nat × LType) → DlgSt → Option DlgSt
  | [], st => some st
  | (line_no, line_type) :: rest, st =>
    if line_type = LType.DIALOG_HEADER then
      match script_lines.get? (line_no - 1) with
      | none => none
      | some line =>
        let character := get_character_from_dialog_header line.content
        if character.isEmpty then
          dialog_lines_go m seg script_lines scene_id scene_location rest st
        else
          match get_page_for_line script_lines line_no with
          | none => none
          | some page =>
            let speaker := get_presence (character, NounType.CHARACTER)
              IType.DISCUSS scene_id page line_no
            match update_interaction st.I scene_location speaker
                speaker.whereAt IType.SETTING with
            | none => none
            | some I2 =>
              let st2 : DlgSt := { st with
                P := update_presence st.P speaker
                I := I2
                speakers := st.speakers ++ [speaker] }
              if st2.running then
                match dialog_run_flush m seg script_lines scene_id
                    scene_location st2 with
                | none => none
                | some st3 =>
                  dialog_lines_go m seg script_lines scene_id scene_location
                    rest { st3 with prior := some speaker }
              else
                dialog_lines_go m seg script_lines scene_id scene_location
                  rest { st2 with prior := some speaker }
    else if line_type = LType.DIALOG then
      if st.running then
        dialog_lines_go m seg script_lines scene_id scene_location rest
          { st with lastd := line_no }
      else
        dialog_lines_go m seg script_lines scene_id scene_location rest
          { st with running := true, firstd := line_no, lastd := line_no }
    else
      dialog_lines_go m seg script_lines scene_id scene_location rest st

/-- The inner loop of the speaker pairing (parse.py:704-707): `s1` against
every later speaker, skipping already-recorded names and self-pairs. -/
def discuss_inner (s1 : Presence) (recorded : List Name) :
    List Presence → InteractionsSt → Option InteractionsSt
  | [], I => some I
  | s2 :: later, I =>
    if s2.name ∈ recorded ∨ s1.name = s2.name then
      discuss_inner s1 recorded later I
    else
      match update_interaction I (some s1) s2 s1.whereAt IType.DISCUSS with
      | none => none
      | some I2 => discuss_inner s1 recorded later I2

/-- The outer loop of the speaker pairing (parse.py:702-708):
`dialog_recorded` accumulates the names of speakers already used as the
earlier member. -/
def discuss_fold (recorded : List Name) :
    List Presence → InteractionsSt → Option InteractionsSt
  | [], I => some I
  | s1 :: rest, I =>
    match discuss_inner s1 recorded rest I with
    | none => none
    | some I2 => discuss_fold (recorded ++ [s1.name]) rest I2

/-- Stable insertion by numeric key (Python `sorted(..., key=int)` over
dict keys; keys are distinct). -/
def insert_by_key {V : Type} (x : Nat × V) :
    List (Nat × V) → List (Nat × V)
  | [] => [x]
  | y :: rest =>
    if x.1 ≤ y.1 then x :: y :: rest else y :: insert_by_key x rest

def sort_by_key {V : Type} : List (Nat × V) → List (Nat × V)
  | [] => []
  | x :: rest => insert_by_key x (sort_by_key rest)

/-- `update_presence_and_interactions_for_dialog` (parse.py:642-708).  The
`first_line`/`last_line` parameters of the source are never read in its
body and are omitted. -/
def update_presence_and_interactions_for_dialog (m : Mode) (seg : Segmenter)
    (P : PresencesSt) (I : InteractionsSt) (script_lines : List LineRec)
    (scene_id : Nat) (scene_location : Option Presence) (block : Block) :
    Option (PresencesSt × InteractionsSt) :=
  match dialog_lines_go m seg script_lines scene_id scene_location
      (sort_by_key block.line_types) ⟨P, I, [], false, none, 0, 0⟩ with
  | none => none
  | some st =>
    match (if st.running then
        dialog_run_flush m seg script_lines scene_id scene_location st
      else some st) with
    | none => none
    | some st2 =>
      match discuss_fold [] st2.speakers st2.I with
      | none => none
      | some I3 => some (st2.P, I3)

/-- `del d[k]` (parse.py:316); the key is always present there. -/
def alist_erase {K V : Type} [DecidableEq K] :
    List (K × V) → K → List (K × V)
  | [], _ => []
  | (k, v) :: rest, key =>
    if k = key then rest else (k, v) :: alist_erase rest key

/-- The running state of the segmentation loop (parse.py:227-248). -/
structure ParseSt where
  front_first : Nat
  front_last : Nat
  scenes : List (Nat × Scene)
  cur_scene : Scene
  cur_block : Block
  prior : LType × LType
  line_no : Option Nat

def parse_init : ParseSt :=
  { front_first := 0
    front_last := 0
    scenes := []
    cur_scene := ⟨0, 1, 1, 1, [], 0, 0⟩
    cur_block := ⟨LType.EMPTY, 1, 1, [(1, LType.EMPTY)], 0⟩
    prior := (LType.FRONT, LType.FRONT)
    line_no := none }

/-- The segmentation loop of `parse_script_lines` (parse.py:250-307), with
one-line lookahead.  The FRONT branch extends the front span without
touching blocks or `prior_types`; the ERROR branch closes the open block
relabelled with the prior block type and opens a one-line ERROR block; a
matching block type extends the block; otherwise the block is closed and,
for a SCENE_HEADING, the scene rotated. -/
def parse_lines_go (m : Mode) : List LineRec → ParseSt → ParseSt
  | [], st => st
  | l :: rest, st =>
    let next_line : Option Name :=
      match rest with
      | [] => none
      | l2 :: _ => some l2.content
    let types := get_types m l.content next_line st.prior
    let st := { st with line_no := some l.line_no }
    if types.1 = LType.FRONT then
      parse_lines_go m rest
        { st with front_first := 1, front_last := l.line_no }
    else if types.1 = LType.ERROR then
      let closed := { st.cur_block with block_type := st.prior.1 }
      let scene2 := { st.cur_scene with
        scene_blocks := st.cur_scene.scene_blocks ++ [closed] }
      let newb : Block := ⟨types.1, l.line_no, l.line_no,
        [(l.line_no, types.2)], 0⟩
      parse_lines_go m rest
        { st with cur_scene := scene2, cur_block := newb, prior := types }
    else if types.1 = st.prior.1 then
      let curb := { st.cur_block with
        last_line := l.line_no
        line_types := alist_set st.cur_block.line_types l.line_no types.2 }
      parse_lines_go m rest { st with cur_block := curb, prior := types }
    else
      let scene2 := { st.cur_scene with
        scene_blocks := st.cur_scene.scene_blocks ++ [st.cur_block] }
      let newb : Block := ⟨types.1, l.line_no, l.line_no,
        [(l.line_no, types.2)], 0⟩
      if types.1 = LType.SCENE_HEADING then
        let closed_scene := { scene2 with last_line := l.line_no - 1 }
        let scenes2 := alist_set st.scenes closed_scene.scene_number
          closed_scene
        let news : Scene := ⟨closed_scene.scene_number + 1, l.line_no,
          l.line_no, l.line_no, [], 0, 0⟩
        parse_lines_go m rest { st with
          scenes := scenes2
          cur_scene := news
          cur_block := newb
          prior := types }
      else
        parse_lines_go m rest { st with
          cur_scene := scene2
          cur_block := newb
          prior := types }

/-- `parse_script_lines` (parse.py:224-360): segmentation loop, terminal
flush, deletion of the seeded scene 0, and the word-count pass.  On empty
input the Python `line_no` is None and the None `last_line` it writes is
discarded with the stub scene, so the fallback value is unobservable. -/
def parse_script_lines (m : Mode) (script_lines : List LineRec) :
    Option ScriptStructure :=
  let st := parse_lines_go m script_lines parse_init
  let final_last :=
    match st.line_no with
    | some n => n
    | none => st.cur_scene.last_line
  let scene2 := { st.cur_scene with
    scene_blocks := st.cur_scene.scene_blocks ++ [st.cur_block]
    last_line := final_last }
  let scenes2 := alist_set st.scenes scene2.scene_number scene2
  let scenes3 := alist_erase scenes2 0
  match add_word_counts script_lines scenes3 with
  | none => none
  | some (scenes4, tw, dw) =>
    some { front_first := st.front_first
           front_last := st.front_last
           scenes := scenes4
           total_words := tw
           dialog_words := dw }

/-- Pass 1 over one scene's blocks (parse.py:398-420): a SCENE_HEADING
block sets the scene location (registered unless the name is a known
CHARACTER); a DIALOG block is processed for speakers and mentions. -/
def pass1_blocks (m : Mode) (seg : Segmenter) (script_lines : List LineRec)
    (scene_id : Nat) :
    List Block → Option Presence → PresencesSt → InteractionsSt →
    Option (PresencesSt × InteractionsSt)
  | [], _, P, I => some (P, I)
  | block :: rest, scene_location, P, I =>
    if block.block_type = LType.SCENE_HEADING then
      match script_lines.get? (block.first_line - 1) with
      | none => none
      | some line =>
        let name := get_scene_location line.content
        let loc2 := get_presence (name, NounType.LOCATION) IType.SETTING
          scene_id line.page_no line.line_no
        let isChar :=
          match alist_get P.presence_ns name with
          | some e => decide (e.noun_type = NounType.CHARACTER)
          | none => false
        if isChar then
          pass1_blocks m seg script_lines scene_id rest (some loc2) P I
        else
          pass1_blocks m seg script_lines scene_id rest (some loc2)
            (update_presence P loc2) I
    else if block.block_type = LType.DIALOG then
      match update_presence_and_interactions_for_dialog m seg P I
          script_lines scene_id scene_location block with
      | none => none
      | some (P2, I2) =>
        pass1_blocks m seg script_lines scene_id rest scene_location P2 I2
    else
      pass1_blocks m seg script_lines scene_id rest scene_location P I

/-- Pass 1 over the scenes in ascending numeric order (parse.py:398);
the scene location starts as the empty dict per scene. -/
def pass1_scenes (m : Mode) (seg : Segmenter)
    (script_lines : List LineRec) :
    List (Nat × Scene) → PresencesSt → InteractionsSt →
    Option (PresencesSt × InteractionsSt)
  | [], P, I => some (P, I)
  | (sid, scene) :: rest, P, I =>
    match pass1_blocks m seg script_lines sid scene.scene_blocks none
        P I with
    | none => none
    | some (P2, I2) => pass1_scenes m seg script_lines rest P2 I2

/-- The pass-2 location replay over one scene's blocks (parse.py:430-441):
on the heading, a known-CHARACTER name reverts to the prior location (no
break); otherwise the location presence recorded in pass 1 is looked up
(`presence_sn[scene_id][name][0]`, KeyError / IndexError modelled `none`),
becomes the new prior, and the block loop breaks. -/
def pass2_find_location (P : PresencesSt) (script_lines : List LineRec)
    (scene_id : Nat) :
    List Block → Option Presence → Option Presence →
    Option (Option Presence × Option Presence)
  | [], scene_location, prior_loc => some (scene_location, prior_loc)
  | block :: rest, scene_location, prior_loc =>
    if block.block_type = LType.SCENE_HEADING then
      match script_lines.get? (block.first_line - 1) with
      | none => none
      | some line =>
        let name := get_scene_location line.content
        let isChar :=
          match alist_get P.presence_ns name with
          | some e => decide (e.noun_type = NounType.CHARACTER)
          | none => false
        if isChar then
          pass2_find_location P script_lines scene_id rest prior_loc
            prior_loc
        else
          match psn_lookup P scene_id name with
          | none => none
          | some lst =>
            match lst.head? with
            | none => none
            | some sl => some (some sl, some sl)
    else
      pass2_find_location P script_lines scene_id rest scene_location
        prior_loc

/-- The pass-2 free-text sweep over one scene's ACTION and DIRECTION
blocks (parse.py:443-449). -/
def pass2_blocks (m : Mode) (seg : Segmenter) (script_lines : List LineRec)
    (scene_id : Nat) (scene_location : Option Presence) :
    List Block → PresencesSt → InteractionsSt →
    Option (PresencesSt × InteractionsSt)
  | [], P, I => some (P, I)
  | block :: rest, P, I =>
    if block.block_type = LType.ACTION ∨
        block.block_type = LType.DIRECTION then
      match update_presence_and_interactions_for_lines m seg P I
          script_lines block.first_line block.last_line scene_id
          scene_location IType.APPEAR with
      | none => none
      | some (P2, I2, _) =>
        pass2_blocks m seg script_lines scene_id scene_location rest P2 I2
    else
      pass2_blocks m seg script_lines scene_id scene_location rest P I

/-- Pass 2 over the scenes (parse.py:427-449), carrying the prior scene
location across scenes. -/
def pass2_scenes (m : Mode) (seg : Segmenter)
    (script_lines : List LineRec) :
    List (Nat × Scene) → Option Presence → PresencesSt → InteractionsSt →
    Option (PresencesSt × InteractionsSt)
  | [], _, P, I => some (P, I)
  | (sid, scene) :: rest, prior_loc, P, I =>
    match pass2_find_location P script_lines sid scene.scene_blocks none
        prior_loc with
    | none => none
    | some (scene_location, prior2) =>
      match pass2_blocks m seg script_lines sid scene_location
          scene.scene_blocks P I with
      | none => none
      | some (P2, I2) =>
        pass2_scenes m seg script_lines rest prior2 P2 I2

/-- The enclosing-block search of parse.py:463-466. -/
def find_block (first_line : Nat) : List Block → Option Block
  | [] => none
  | b :: rest =>
    if b.first_line ≤ first_line ∧ first_line ≤ b.last_line then some b
    else find_block first_line rest

/-- The dialog-word scan of parse.py:468-478 over the sorted line types:
skip lines before the presence's line, count the presence's line, then
count until the next DIALOG_HEADER (exclusive). -/
def dialog_words_scan (script_lines : List LineRec) (first_line : Nat) :
    List (Nat × LType) → Option Nat
  | [] => some 0
  | (line_no, line_type) :: rest =>
    if line_no < first_line then
      dialog_words_scan script_lines first_line rest
    else if line_no = first_line then
      match script_lines.get? (line_no - 1) with
      | none => none
      | some line =>
        match dialog_words_scan script_lines first_line rest with
        | none => none
        | some dw => some (word_count line.content + dw)
    else if line_type = LType.DIALOG_HEADER then some 0
    else
      match script_lines.get? (line_no - 1) with
      | none => none
      | some line =>
        match dialog_words_scan script_lines first_line rest with
        | none => none
        | some dw => some (word_count line.content + dw)

/-- The dialog-words augmentation pass (parse.py:451-480): every DISCUSS
presence gets the word count of its dialog run.  `none` models the lookup
failures (a missing scene key, no enclosing block — the Python
`dialog_block = None` followed by an attribute access).  The source
mutates the shared presence records in place; the model rewrites the
append-only log (the index structures hold the same records in the
source, and no claim reads `dialog_words` through an index). -/
def post_pass (script : ScriptStructure) (script_lines : List LineRec) :
    List Presence → Option (List Presence)
  | [] => some []
  | presence :: rest =>
    if presence.presence_type = IType.DISCUSS then
      match alist_get script.scenes presence.whereAt.scene_id with
      | none => none
      | some scene =>
        match find_block presence.whereAt.line_no scene.scene_blocks with
        | none => none
        | some dialog_block =>
          match dialog_words_scan script_lines presence.whereAt.line_no
              (sort_by_key dialog_block.line_types) with
          | none => none
          | some dw =>
            match post_pass script script_lines rest with
            | none => none
            | some rest2 =>
              some ({ presence with dialog_words := some dw } :: rest2)
    else
      match post_pass script script_lines rest with
      | none => none
      | some rest2 => some (presence :: rest2)

/-- `compute_presence_and_interactions` (parse.py:369-482).  `m` is the
process-wide mode from `const` (the `parse_mode` parameter only rebinds a
function-local name that nothing reads; the helpers read the module-level
`mode`).  The Presences/Interactions objects (tsl.script.Presences /
Interactions, not under src/) are modelled from the spec as the mutable
registry and graph with their append-only logs and indices, starting
empty. -/
def compute_presence_and_interactions (m : Mode) (seg : Segmenter)
    (script_lines : List LineRec) (script : ScriptStructure) :
    Option (PresencesSt × InteractionsSt) :=
  let scenes := sort_by_key script.scenes
  match pass1_scenes m seg script_lines scenes {} {} with
  | none => none
  | some (P1, I1) =>
    match pass2_scenes m seg script_lines scenes none P1 I1 with
    | none => none
    | some (P2, I2) =>
      match post_pass script script_lines P2.presences with
      | none => none
      | some presences2 =>
        some ({ P2 with presences := presences2 }, I2)

/-- The extraction pipeline: compute_presence_and_interactions after
parse_script_lines, on one process-wide mode and one segmentation
capability. -/
def pipeline (m : Mode) (seg : Segmenter) (script_lines : List LineRec) :
    Option (PresencesSt × InteractionsSt) :=
  match parse_script_lines m script_lines with
  | none => none
  | some script =>
    compute_presence_and_interactions m seg script_lines script

/-- The failing input for C2: the heading establishes location JOHN, the
dialog header promotes JOHN to CHARACTER, so pass 2 rejects the heading
with no previously established location and the action line's JOHN
occurrence reaches update_interaction with the empty scene location. -/
def c2_lines : List LineRec :=
  [⟨1, 1, "INT. JOHN - DAY\n".toList⟩,
   ⟨2, 1, "\n".toList⟩,
   ⟨3, 1, "  JOHN\n".toList⟩,
   ⟨4, 1, "  Hi.\n".toList⟩,
   ⟨5, 1, "\n".toList⟩,
   ⟨6, 1, "JOHN went home.\n".toList⟩]

/-- C2: the extraction pipeline is not exception-free.  On c2_lines the
segmentation and pass 1 both complete, but the run aborts (`none` = the
uncaught KeyError of `a['name']` on the empty scene-location dict inside
`_update_interaction_helper`): a rejected scene heading with no previously
established location is not recovered.  STRICT mode; the segmenter returns
the text as one sentence (its behavior on text without sentence-ending
punctuation). -/
theorem C2_pipeline_not_total :
    (parse_script_lines Mode.STRICT c2_lines).isSome = true ∧
    (match parse_script_lines Mode.STRICT c2_lines with
     | some script =>
        (pass1_scenes Mode.STRICT seg_whole c2_lines
          (sort_by_key script.scenes) {} {}).isSome
     | none => false) = true ∧
    pipeline Mode.STRICT seg_whole c2_lines = none := by
  refine ⟨by decide, by decide, by decide⟩

/-- The input for the C1 counterexample: the scene's own location name
occurs twice in one action-text sentence. -/
def c1_lines : List LineRec :=
  [⟨1, 1, "INT. KITCHEN - DAY\n".toList⟩,
   ⟨2, 1, "\n".toList⟩,
   ⟨3, 1, "KITCHEN KITCHEN\n".toList⟩]

/-- C1 counterexample: a run of the pipeline (STRICT mode, segmenter
returning the whole text as one sentence) records interactions with
`a['name'] == b['name']`: a SETTING self-interaction (the found noun is
the scene's own location) and an APPEAR self-interaction (the same name
twice in one sentence) — update_interaction has no same-name guard. -/
theorem C1_counterexample :
    (match pipeline Mode.STRICT seg_whole c1_lines with
     | some r =>
        r.2.interactions.any (fun i => decide (i.a.name = i.b.name) &&
          decide (i.interaction_type = IType.SETTING)) &&
        r.2.interactions.any (fun i => decide (i.a.name = i.b.name) &&
          decide (i.interaction_type = IType.APPEAR))
     | none => false) = true := by
  decide

/-- No DISCUSS-typed interaction in the log has equal participant
names. -/
def discuss_ok (I : InteractionsSt) : Prop :=
  ∀ i ∈ I.interactions, i.interaction_type = IType.DISCUSS →
    i.a.name ≠ i.b.name

lemma update_interaction_log {I : InteractionsSt} {a b : Presence}
    {w : WhereAt} {t : IType} {I' : InteractionsSt}
    (h : update_interaction I (some a) b w t = some I') :
    I'.interactions = I.interactions ++ [get_interaction a b w t] := by
  simp only [update_interaction] at h
  injection h with h2
  subst h2
  rfl

lemma discuss_ok_append {I : InteractionsSt} {a b : Presence} {w : WhereAt}
    {t : IType} {I' : InteractionsSt}
    (h : update_interaction I (some a) b w t = some I') (hI : discuss_ok I)
    (ht : t = IType.DISCUSS → a.name ≠ b.name) : discuss_ok I' := by
  intro i hi hd
  rw [update_interaction_log h] at hi
  rcases List.mem_append.mp hi with hi1 | hi2
  · exact hI i hi1 hd
  · have heq : i = get_interaction a b w t := List.mem_singleton.mp hi2
    subst heq
    exact ht hd

lemma discuss_ok_ui {I : InteractionsSt} {a : Option Presence} {b : Presence}
    {w : WhereAt} {t : IType} {I' : InteractionsSt}
    (h : update_interaction I a b w t = some I') (hI : discuss_ok I)
    (ht : t ≠ IType.DISCUSS) : discuss_ok I' := by
  cases a with
  | none => cases h
  | some a => exact discuss_ok_append h hI (fun hd => absurd hd ht)

lemma upail_names_go_ok {script_lines : List LineRec} {scene_id : Nat}
    {scene_location : Option Presence} {presence_type : IType}
    {line_offsets : List (Nat × Nat)} {prior_offset : Nat} :
    ∀ (occs : List (Name × Nat)) (P : PresencesSt) (I : InteractionsSt)
      (out : PresencesSt × InteractionsSt × List Presence),
      upail_names_go script_lines scene_id scene_location presence_type
        line_offsets prior_offset occs P I = some out →
      discuss_ok I → discuss_ok out.2.1 := by
  intro occs
  induction occs with
  | nil =>
      intro P I out h hI
      simp only [upail_names_go, Option.some_inj] at h
      subst h
      exact hI
  | cons occ rest ih =>
      intro P I out h hI
      obtain ⟨name, off⟩ := occ
      simp only [upail_names_go] at h
      cases h1 : get_line_for_offset line_offsets (prior_offset + off) with
      | none => rw [h1] at h; cases h
      | some ln =>
          obtain ⟨line_no, diag⟩ := ln
          simp only [h1] at h
          cases h2 : get_page_for_line script_lines line_no with
          | none => rw [h2] at h; cases h
          | some page_no =>
              simp only [h2] at h
              cases h3 : update_interaction I scene_location
                  (get_presence
                    (name, get_noun_type_for_name P.presence_ns name)
                    presence_type scene_id page_no line_no)
                  (get_presence
                    (name, get_noun_type_for_name P.presence_ns name)
                    presence_type scene_id page_no line_no).whereAt
                  IType.SETTING with
              | none => rw [h3] at h; cases h
              | some I2 =>
                  simp only [h3] at h
                  cases h4 : upail_names_go script_lines scene_id
                      scene_location presence_type line_offsets prior_offset
                      rest
                      (update_presence P (get_presence
                        (name, get_noun_type_for_name P.presence_ns name)
                        presence_type scene_id page_no line_no)) I2 with
                  | none => rw [h4] at h; cases h
                  | some out2 =>
                      obtain ⟨P3, I3, ps⟩ := out2
                      simp only [h4] at h
                      simp only [Option.some_inj] at h
                      subst h
                      have hI2 := discuss_ok_ui h3 hI (by decide)
                      exact ih _ _ (P3, I3, ps) h4 hI2

lemma upail_pairs_go_ok :
    ∀ (pairs : List (Presence × Presence)) (I I' : InteractionsSt),
      upail_pairs_go pairs I = some I' → discuss_ok I → discuss_ok I' := by
  intro pairs
  induction pairs with
  | nil =>
      intro I I' h hI
      simp only [upail_pairs_go, Option.some_inj] at h
      subst h
      exact hI
  | cons pr rest ih =>
      intro I I' h hI
      obtain ⟨p1, p2⟩ := pr
      simp only [upail_pairs_go] at h
      cases h1 : update_interaction I (some p1) p2 p1.whereAt
          IType.APPEAR with
      | none => rw [h1] at h; cases h
      | some I2 =>
          rw [h1] at h
          exact ih _ _ h (discuss_ok_ui h1 hI (by decide))

lemma upail_sents_go_ok {m : Mode} {script_lines : List LineRec}
    {scene_id : Nat} {scene_location : Option Presence}
    {presence_type : IType} {line_offsets : List (Nat × Nat)} :
    ∀ (sents : List (List Char)) (P : PresencesSt) (I : InteractionsSt)
      (prior_offset : Nat)
      (out : PresencesSt × InteractionsSt × List Presence),
      upail_sents_go m script_lines scene_id scene_location presence_type
        line_offsets sents P I prior_offset = some out →
      discuss_ok I → discuss_ok out.2.1 := by
  intro sents
  induction sents with
  | nil =>
      intro P I po out h hI
      simp only [upail_sents_go, Option.some_inj] at h
      subst h
      exact hI
  | cons sent rest ih =>
      intro P I po out h hI
      simp only [upail_sents_go] at h
      cases h1 : upail_names_go script_lines scene_id scene_location
          presence_type line_offsets po
          (get_name_offsets P.presence_ns sent
            (mode_nouns m P.presence_ns sent)) P I with
      | none => rw [h1] at h; cases h
      | some o2 =>
          obtain ⟨P2, I2, sp⟩ := o2
          simp only [h1] at h
          cases h2 : upail_pairs_go (combinations2 sp) I2 with
          | none => rw [h2] at h; cases h
          | some I3 =>
              simp only [h2] at h
              cases h3 : upail_sents_go m script_lines scene_id
                  scene_location presence_type line_offsets rest P2 I3
                  (po + sent.length + 1) with
              | none => rw [h3] at h; cases h
              | some o4 =>
                  obtain ⟨P4, I4, ps⟩ := o4
                  simp only [h3, Option.some_inj] at h
                  subst h
                  have hI2 := upail_names_go_ok _ _ _ (P2, I2, sp) h1 hI
                  have hI3 := upail_pairs_go_ok _ _ _ h2 hI2
                  exact ih _ _ _ (P4, I4, ps) h3 hI3

lemma upail_ok {m : Mode} {seg : Segmenter} {P : PresencesSt}
    {I : InteractionsSt} {script_lines : List LineRec}
    {first_line last_line scene_id : Nat}
    {scene_location : Option Presence} {presence_type : IType}
    {out : PresencesSt × InteractionsSt × List Presence}
    (h : update_presence_and_interactions_for_lines m seg P I script_lines
      first_line last_line scene_id scene_location presence_type =
        some out)
    (hI : discuss_ok I) : discuss_ok out.2.1 := by
  simp only [update_presence_and_interactions_for_lines] at h
  exact upail_sents_go_ok _ _ _ _ _ h hI

lemma mention_links_ok {prior : Presence} :
    ∀ (things : List Presence) (I I' : InteractionsSt),
      mention_links prior things I = some I' → discuss_ok I →
      discuss_ok I' := by
  intro things
  induction things with
  | nil =>
      intro I I' h hI
      simp only [mention_links, Option.some_inj] at h
      subst h
      exact hI
  | cons thing rest ih =>
      intro I I' h hI
      simp only [mention_links] at h
      cases h1 : update_interaction I (some prior) thing thing.whereAt
          IType.MENTION with
      | none => rw [h1] at h; cases h
      | some I2 =>
          rw [h1] at h
          exact ih _ _ h (discuss_ok_ui h1 hI (by decide))

lemma dialog_run_flush_ok {m : Mode} {seg : Segmenter}
    {script_lines : List LineRec} {scene_id : Nat}
    {scene_location : Option Presence} {st st2 : DlgSt}
    (h : dialog_run_flush m seg script_lines scene_id scene_location st =
      some st2)
    (hI : discuss_ok st.I) : discuss_ok st2.I := by
  simp only [dialog_run_flush] at h
  cases h1 : update_presence_and_interactions_for_lines m seg st.P st.I
      script_lines st.firstd st.lastd scene_id scene_location
      IType.MENTION with
  | none => rw [h1] at h; cases h
  | some o2 =>
      obtain ⟨P2, I2, mentioned⟩ := o2
      simp only [h1] at h
      have hI2 : discuss_ok I2 := upail_ok h1 hI
      cases hp : st.prior with
      | none =>
          simp only [hp, Option.some_inj] at h
          subst h
          exact hI2
      | some pr =>
          simp only [hp] at h
          cases h2 : mention_links pr mentioned I2 with
          | none => rw [h2] at h; cases h
          | some I3 =>
              simp only [h2, Option.some_inj] at h
              subst h
              exact mention_links_ok _ _ _ h2 hI2

lemma dialog_lines_go_ok {m : Mode} {seg : Segmenter}
    {script_lines : List LineRec} {scene_id : Nat}
    {scene_location : Option Presence} :
    ∀ (entries : List (Nat × LType)) (st st2 : DlgSt),
      dialog_lines_go m seg script_lines scene_id scene_location entries
        st = some st2 →
      discuss_ok st.I → discuss_ok st2.I := by
  intro entries
  induction entries with
  | nil =>
      intro st st2 h hI
      simp only [dialog_lines_go, Option.some_inj] at h
      subst h
      exact hI
  | cons e rest ih =>
      intro st st2 h hI
      obtain ⟨line_no, line_type⟩ := e
      simp only [dialog_lines_go] at h
      by_cases hty : line_type = LType.DIALOG_HEADER
      · rw [if_pos hty] at h
        cases h1 : script_lines.get? (line_no - 1) with
        | none => rw [h1] at h; cases h
        | some line =>
            simp only [h1] at h
            by_cases hch : (get_character_from_dialog_header
                line.content).isEmpty
            · rw [if_pos hch] at h
              exact ih _ _ h hI
            · rw [if_neg hch] at h
              cases h2 : get_page_for_line script_lines line_no with
              | none => rw [h2] at h; cases h
              | some page =>
                  simp only [h2] at h
                  cases h3 : update_interaction st.I scene_location
                      (get_presence
                        (get_character_from_dialog_header line.content,
                          NounType.CHARACTER)
                        IType.DISCUSS scene_id page line_no)
                      (get_presence
                        (get_character_from_dialog_header line.content,
                          NounType.CHARACTER)
                        IType.DISCUSS scene_id page line_no).whereAt
                      IType.SETTING with
                  | none => rw [h3] at h; cases h
                  | some I2 =>
                      simp only [h3] at h
                      have hI2 : discuss_ok I2 :=
                        discuss_ok_ui h3 hI (by decide)
                      cases hrun : st.running with
                      | true =>
                          simp only [hrun, if_true] at h
                          cases h4 : dialog_run_flush m seg script_lines
                              scene_id scene_location
                              { P := update_presence st.P (get_presence
                                  (get_character_from_dialog_header
                                    line.content, NounType.CHARACTER)
                                  IType.DISCUSS scene_id page line_no)
                                I := I2
                                speakers := st.speakers ++ [get_presence
                                  (get_character_from_dialog_header
                                    line.content, NounType.CHARACTER)
                                  IType.DISCUSS scene_id page line_no]
                                running := true
                                prior := st.prior
                                firstd := st.firstd
                                lastd := st.lastd } with
                          | none => rw [h4] at h; cases h
                          | some st3 =>
                              simp only [h4] at h
                              have hI3 : discuss_ok st3.I :=
                                dialog_run_flush_ok h4 hI2
                              exact ih _ _ h hI3
                      | false =>
                          simp [hrun] at h
                          exact ih _ _ h hI2
      · rw [if_neg hty] at h
        by_cases hd : line_type = LType.DIALOG
        · rw [if_pos hd] at h
          cases hrun : st.running with
          | true =>
              simp only [hrun, if_true] at h
              exact ih _ _ h hI
          | false =>
              simp [hrun] at h
              exact ih _ _ h hI
        · rw [if_neg hd] at h
          exact ih _ _ h hI

lemma discuss_inner_ok {s1 : Presence} {recorded : List Name} :
    ∀ (later : List Presence) (I I' : InteractionsSt),
      discuss_inner s1 recorded later I = some I' → discuss_ok I →
      discuss_ok I' := by
  intro later
  induction later with
  | nil =>
      intro I I' h hI
      simp only [discuss_inner, Option.some_inj] at h
      subst h
      exact hI
  | cons s2 rest ih =>
      intro I I' h hI
      simp only [discuss_inner] at h
      by_cases hskip : s2.name ∈ recorded ∨ s1.name = s2.name
      · rw [if_pos hskip] at h
        exact ih _ _ h hI
      · rw [if_neg hskip] at h
        cases h1 : update_interaction I (some s1) s2 s1.whereAt
            IType.DISCUSS with
        | none => rw [h1] at h; cases h
        | some I2 =>
            rw [h1] at h
            have hne : s1.name ≠ s2.name := fun he => hskip (Or.inr he)
            exact ih _ _ h (discuss_ok_append h1 hI (fun _ => hne))

lemma discuss_fold_ok :
    ∀ (speakers : List Presence) (recorded : List Name)
      (I I' : InteractionsSt),
      discuss_fold recorded speakers I = some I' → discuss_ok I →
      discuss_ok I' := by
  intro speakers
  induction speakers with
  | nil =>
      intro recorded I I' h hI
      simp only [discuss_fold, Option.some_inj] at h
      subst h
      exact hI
  | cons s1 rest ih =>
      intro recorded I I' h hI
      simp only [discuss_fold] at h
      cases h1 : discuss_inner s1 recorded rest I with
      | none => rw [h1] at h; cases h
      | some I2 =>
          rw [h1] at h
          exact ih _ _ _ h (discuss_inner_ok _ _ _ h1 hI)

/-- C1 (amended): the DISCUSS speaker-pairing loop never records a
self-interaction — its `s1['name'] == s2['name']` guard is the only
same-name check anywhere, so every DISCUSS-typed interaction in the log
after update_presence_and_interactions_for_dialog has distinct participant
names whenever the incoming log does; update_interaction itself performs
no check, and SETTING and APPEAR/MENTION self-interactions are recorded
(C1_counterexample). -/
theorem C1_discuss_no_self (m : Mode) (seg : Segmenter) (P : PresencesSt)
    (I : InteractionsSt) (script_lines : List LineRec) (scene_id : Nat)
    (scene_location : Option Presence) (block : Block)
    (hinv : I.interactions.all (fun i =>
      !decide (i.interaction_type = IType.DISCUSS) ||
      !decide (i.a.name = i.b.name)) = true) :
    (match update_presence_and_interactions_for_dialog m seg P I
        script_lines scene_id scene_location block with
     | some out => out.2.interactions.all (fun i =>
         !decide (i.interaction_type = IType.DISCUSS) ||
         !decide (i.a.name = i.b.name))
     | none => true) = true := by
  have hI : discuss_ok I := by
    intro i hi hd
    have hx := List.all_eq_true.mp hinv i hi
    simp only [Bool.or_eq_true, Bool.not_eq_true', decide_eq_false_iff_not,
      decide_eq_true_eq] at hx
    rcases hx with hx | hx
    · exact absurd hd hx
    · exact hx
  cases hrun : update_presence_and_interactions_for_dialog m seg P I
      script_lines scene_id scene_location block with
  | none => rfl
  | some out =>
      have hok : discuss_ok out.2 := by
        simp only [update_presence_and_interactions_for_dialog] at hrun
        cases h1 : dialog_lines_go m seg script_lines scene_id
            scene_location (sort_by_key block.line_types)
            ⟨P, I, [], false, none, 0, 0⟩ with
        | none => rw [h1] at hrun; cases hrun
        | some st =>
            simp only [h1] at hrun
            have hIst : discuss_ok st.I := dialog_lines_go_ok _ _ _ h1 hI
            cases h2 : (if st.running then
                dialog_run_flush m seg script_lines scene_id scene_location
                  st
              else some st) with
            | none => rw [h2] at hrun; cases hrun
            | some st2 =>
                simp only [h2] at hrun
                have hIst2 : discuss_ok st2.I := by
                  by_cases hr : st.running
                  · rw [if_pos hr] at h2
                    exact dialog_run_flush_ok h2 hIst
                  · rw [if_neg hr] at h2
                    simp only [Option.some_inj] at h2
                    subst h2
                    exact hIst
                cases h3 : discuss_fold [] st2.speakers st2.I with
                | none => rw [h3] at hrun; cases hrun
                | some I3 =>
                    simp only [h3, Option.some_inj] at hrun
                    subst hrun
                    exact discuss_fold_ok _ _ _ _ h3 hIst2
      rw [List.all_eq_true]
      intro i hi
      simp only [Bool.or_eq_true, Bool.not_eq_true', decide_eq_false_iff_not,
        decide_eq_true_eq]
      by_cases hd : i.interaction_type = IType.DISCUSS
      · exact Or.inr (hok i hi hd)
      · exact Or.inl hd

/-- Witness for C1_discuss_no_self on a concrete two-header dialog
block. -/
theorem C1_discuss_no_self_witness :
    (match update_presence_and_interactions_for_dialog Mode.STRICT
        seg_whole {} {}
        [⟨1, 1, "  AL\n".toList⟩, ⟨2, 1, "  BOB\n".toList⟩] 1
        (some (get_presence ("KITCHEN".toList, NounType.LOCATION)
          IType.SETTING 1 1 1))
        ⟨LType.DIALOG, 1, 2,
          [(1, LType.DIALOG_HEADER), (2, LType.DIALOG_HEADER)], 0⟩ with
     | some out => out.2.interactions.all (fun i =>
         !decide (i.interaction_type = IType.DISCUSS) ||
         !decide (i.a.name = i.b.name))
     | none => true) = true :=
  C1_discuss_no_self Mode.STRICT seg_whole {} {}
    [⟨1, 1, "  AL\n".toList⟩, ⟨2, 1, "  BOB\n".toList⟩] 1
    (some (get_presence ("KITCHEN".toList, NounType.LOCATION)
      IType.SETTING 1 1 1))
    ⟨LType.DIALOG, 1, 2,
      [(1, LType.DIALOG_HEADER), (2, LType.DIALOG_HEADER)], 0⟩
    (by decide)

/-- The input for the C3 counterexample: dialog headers AL, BOB, BOB in
one DIALOG block (the same character speaking twice, separated by blank
lines whose lookahead is a header). -/
def c3_lines : List LineRec :=
  [⟨1, 1, "INT. KITCHEN - DAY\n".toList⟩,
   ⟨2, 1, "\n".toList⟩,
   ⟨3, 1, "  AL\n".toList⟩,
   ⟨4, 1, "  Hi there.\n".toList⟩,
   ⟨5, 1, "\n".toList⟩,
   ⟨6, 1, "  BOB\n".toList⟩,
   ⟨7, 1, "  Yes.\n".toList⟩,
   ⟨8, 1, "\n".toList⟩,
   ⟨9, 1, "  BOB\n".toList⟩,
   ⟨10, 1, "  Sure.\n".toList⟩]

/-- C3 counterexample: a pipeline run (STRICT, whole-text segmenter) on a
DIALOG block with headers AL, BOB, BOB records the DISCUSS interaction
AL-BOB twice — the `dialog_recorded` guard only blocks later speakers whose
names already served as the earlier member, not a repeated later speaker —
refuting "exactly one DISCUSS interaction per speaker pair, no duplicate
pair emission". -/
theorem C3_counterexample :
    (match pipeline Mode.STRICT seg_whole c3_lines with
     | some r => decide ((r.2.interactions.filter (fun i =>
         decide (i.interaction_type = IType.DISCUSS) &&
         decide (i.a.name = "AL".toList) &&
         decide (i.b.name = "BOB".toList))).length = 2)
     | none => false) = true := by
  decide

/-- Specification of what the pairing loop appends: for each speaker `s1`
in order, one DISCUSS interaction at `s1`'s where to every later speaker
whose name is neither already recorded nor equal to `s1`'s. -/
def discuss_emitted (recorded : List Name) :
    List Presence → List Interaction
  | [] => []
  | s1 :: rest =>
    ((rest.filter (fun s2 => !decide (s2.name ∈ recorded) &&
        !decide (s1.name = s2.name))).map
      (fun s2 => get_interaction s1 s2 s1.whereAt IType.DISCUSS)) ++
      discuss_emitted (recorded ++ [s1.name]) rest

lemma update_interaction_some (I : InteractionsSt) (a b : Presence)
    (w : WhereAt) (t : IType) :
    ∃ I', update_interaction I (some a) b w t = some I' ∧
      I'.interactions = I.interactions ++ [get_interaction a b w t] :=
  ⟨_, rfl, rfl⟩

lemma discuss_inner_log (s1 : Presence) (recorded : List Name) :
    ∀ (later : List Presence) (I : InteractionsSt),
      ∃ I2, discuss_inner s1 recorded later I = some I2 ∧
        I2.interactions = I.interactions ++
          ((later.filter (fun s2 => !decide (s2.name ∈ recorded) &&
              !decide (s1.name = s2.name))).map
            (fun s2 => get_interaction s1 s2 s1.whereAt IType.DISCUSS)) := by
  intro later
  induction later with
  | nil => intro I; exact ⟨I, rfl, by simp⟩
  | cons s2 rest ih =>
      intro I
      by_cases hskip : s2.name ∈ recorded ∨ s1.name = s2.name
      · obtain ⟨I2, hI2, hlog⟩ := ih I
        have hpred : (!decide (s2.name ∈ recorded) &&
            !decide (s1.name = s2.name)) = false := by
          rcases hskip with hsk | hsk <;> simp [hsk]
        refine ⟨I2, ?_, ?_⟩
        · simp only [discuss_inner, if_pos hskip]
          exact hI2
        · rw [hlog, List.filter_cons_of_neg (by simp [hpred])]
      · obtain ⟨Imid, hmid, hmidlog⟩ :=
          update_interaction_some I s1 s2 s1.whereAt IType.DISCUSS
        obtain ⟨I2, hI2, hlog⟩ := ih Imid
        have hpred : (!decide (s2.name ∈ recorded) &&
            !decide (s1.name = s2.name)) = true := by
          push_neg at hskip
          simp [hskip.1, hskip.2]
        refine ⟨I2, ?_, ?_⟩
        · simp only [discuss_inner, if_neg hskip, hmid]
          exact hI2
        · rw [hlog, hmidlog]
          simp [List.filter_cons, hpred, List.append_assoc]

lemma discuss_fold_log :
    ∀ (speakers : List Presence) (recorded : List Name)
      (I I' : InteractionsSt),
      discuss_fold recorded speakers I = some I' →
      I'.interactions = I.interactions ++
        discuss_emitted recorded speakers := by
  intro speakers
  induction speakers with
  | nil =>
      intro recorded I I' h
      simp only [discuss_fold, Option.some_inj] at h
      subst h
      simp [discuss_emitted]
  | cons s1 rest ih =>
      intro recorded I I' h
      simp only [discuss_fold] at h
      obtain ⟨Imid, hmid, hmidlog⟩ := discuss_inner_log s1 recorded rest I
      simp only [hmid] at h
      have hrec := ih (recorded ++ [s1.name]) Imid I' h
      rw [hrec, hmidlog, discuss_emitted]
      simp [List.append_assoc]

lemma discuss_emitted_sound :
    ∀ (speakers : List Presence) (recorded : List Name) (i : Interaction),
      i ∈ discuss_emitted recorded speakers →
      i.interaction_type = IType.DISCUSS ∧ i.whereAt = i.a.whereAt ∧
      i.a.name ≠ i.b.name ∧
      ∃ p q, p < q ∧ speakers.get? p = some i.a ∧
        speakers.get? q = some i.b := by
  intro speakers
  induction speakers with
  | nil =>
      intro recorded i hi
      simp [discuss_emitted] at hi
  | cons s1 rest ih =>
      intro recorded i hi
      simp only [discuss_emitted] at hi
      rcases List.mem_append.mp hi with hi1 | hi2
      · obtain ⟨s2, hs2mem, rfl⟩ := List.mem_map.mp hi1
        obtain ⟨hs2r, hpred⟩ := List.mem_filter.mp hs2mem
        have hnames : s1.name ≠ s2.name := by
          simp only [Bool.and_eq_true, Bool.not_eq_true',
            decide_eq_false_iff_not] at hpred
          exact hpred.2
        obtain ⟨j, hj⟩ := List.mem_iff_get?.mp hs2r
        exact ⟨rfl, rfl, hnames, 0, j + 1, Nat.succ_pos j, rfl,
          by simpa using hj⟩
      · obtain ⟨h1, h2, h3, p, q, hpq, hp, hq⟩ :=
          ih (recorded ++ [s1.name]) i hi2
        exact ⟨h1, h2, h3, p + 1, q + 1, by omega, by simpa using hp,
          by simpa using hq⟩

lemma discuss_emitted_complete :
    ∀ (speakers : List Presence) (recorded : List Name),
      (recorded ++ speakers.map (fun s => s.name)).Nodup →
      ∀ p q a b, p < q → speakers.get? p = some a →
        speakers.get? q = some b →
        get_interaction a b a.whereAt IType.DISCUSS ∈
          discuss_emitted recorded speakers := by
  intro speakers
  induction speakers with
  | nil =>
      intro recorded _ p q a b _ hp _
      simp at hp
  | cons s1 rest ih =>
      intro recorded hnd p q a b hpq hp hq
      simp only [discuss_emitted]
      rw [List.mem_append]
      cases p with
      | zero =>
          have ha : a = s1 := by simpa using hp.symm
          subst ha
          cases q with
          | zero => omega
          | succ q2 =>
              have hb : rest.get? q2 = some b := by simpa using hq
              have hbmem : b ∈ rest := List.get?_mem hb
              left
              apply List.mem_map.mpr
              refine ⟨b, List.mem_filter.mpr ⟨hbmem, ?_⟩, rfl⟩
              have hcr : (a.name :: rest.map (fun s => s.name)).Nodup := by
                have := hnd.of_append_right
                simpa using this
              have hanotin : a.name ∉ rest.map (fun s => s.name) :=
                (List.nodup_cons.mp hcr).1
              have hdisj := List.disjoint_of_nodup_append hnd
              have hbnin : b.name ∉ recorded := by
                intro hin
                exact hdisj hin (by
                  simp only [List.map_cons, List.mem_cons]
                  exact Or.inr (List.mem_map.mpr ⟨b, hbmem, rfl⟩))
              have hane : ¬ a.name = b.name := by
                intro he
                exact hanotin (he ▸ List.mem_map.mpr ⟨b, hbmem, rfl⟩)
              simp [hbnin, hane]
      | succ p2 =>
          cases q with
          | zero => omega
          | succ q2 =>
              right
              have hp2 : rest.get? p2 = some a := by simpa using hp
              have hq2 : rest.get? q2 = some b := by simpa using hq
              apply ih (recorded ++ [s1.name]) ?_ p2 q2 a b (by omega) hp2
                hq2
              rw [List.append_assoc]
              simpa using hnd

lemma discuss_emitted_a_name_mem :
    ∀ (speakers : List Presence) (recorded : List Name) (i : Interaction),
      i ∈ discuss_emitted recorded speakers →
      i.a.name ∈ speakers.map (fun s => s.name) := by
  intro speakers recorded i hi
  obtain ⟨-, -, -, p, q, -, hp, -⟩ := discuss_emitted_sound _ _ _ hi
  exact List.mem_map.mpr ⟨i.a, List.get?_mem hp, rfl⟩

lemma discuss_emitted_nodup :
    ∀ (speakers : List Presence) (recorded : List Name),
      (recorded ++ speakers.map (fun s => s.name)).Nodup →
      ((discuss_emitted recorded speakers).map
        (fun i => (i.a.name, i.b.name))).Nodup := by
  intro speakers
  induction speakers with
  | nil =>
      intro recorded _
      simp [discuss_emitted]
  | cons s1 rest ih =>
      intro recorded hnd
      have hcr : (s1.name :: rest.map (fun s => s.name)).Nodup := by
        have := hnd.of_append_right
        simpa using this
      have hrestnames : (rest.map (fun s => s.name)).Nodup :=
        (List.nodup_cons.mp hcr).2
      have hs1nin : s1.name ∉ rest.map (fun s => s.name) :=
        (List.nodup_cons.mp hcr).1
      simp only [discuss_emitted, List.map_append]
      apply List.Nodup.append
      · rw [List.map_map]
        apply List.Nodup.map_on
        · intro x hx y hy hxy
          have hx2 := (List.mem_filter.mp hx).1
          have hy2 := (List.mem_filter.mp hy).1
          have : x.name = y.name := by
            have := congrArg Prod.snd hxy
            simpa using this
          exact List.inj_on_of_nodup_map hrestnames hx2 hy2 this
        · exact ((List.Nodup.of_map _ hrestnames).filter _)
      · apply ih (recorded ++ [s1.name])
        rw [List.append_assoc]
        simpa using hnd
      · intro pr hpr hpr2
        obtain ⟨s2, -, rfl⟩ := List.mem_map.mp (by
          rw [List.map_map] at hpr
          exact hpr)
        obtain ⟨j, hj2, hj3⟩ := List.mem_map.mp hpr2
        have hja := discuss_emitted_a_name_mem rest (recorded ++ [s1.name])
          j hj2
        have : j.a.name = s1.name := by
          have := congrArg Prod.fst hj3
          simpa using this
        rw [this] at hja
        exact hs1nin hja

/-- C3 (amended): over any speaker sequence the pairing loop emits only
DISCUSS interactions from an earlier speaker to a later one with distinct
names, at the earlier speaker's where (one direction only, no self-pairs);
when the header names are pairwise distinct, every earlier/later pair is
emitted and no name pair is emitted twice.  With a repeated later speaker
the same pair can be emitted more than once (C3_counterexample). -/
theorem C3_discuss_pairing (speakers : List Presence)
    (I' : InteractionsSt) (h : discuss_fold [] speakers {} = some I') :
    (∀ i ∈ I'.interactions, i.interaction_type = IType.DISCUSS ∧
      i.whereAt = i.a.whereAt ∧ i.a.name ≠ i.b.name ∧
      ∃ p q, p < q ∧ speakers.get? p = some i.a ∧
        speakers.get? q = some i.b) ∧
    ((speakers.map (fun s => s.name)).Nodup →
      ((I'.interactions.map (fun i => (i.a.name, i.b.name))).Nodup ∧
      ∀ p q a b, p < q → speakers.get? p = some a →
        speakers.get? q = some b →
        get_interaction a b a.whereAt IType.DISCUSS ∈ I'.interactions)) := by
  have hlog := discuss_fold_log speakers [] {} I' h
  simp only [List.nil_append] at hlog
  have hlog2 : I'.interactions = discuss_emitted [] speakers := hlog
  constructor
  · intro i hi
    rw [hlog2] at hi
    exact discuss_emitted_sound speakers [] i hi
  · intro hnd
    have hnd2 : (([] : List Name) ++
        speakers.map (fun s => s.name)).Nodup := by simpa using hnd
    constructor
    · rw [hlog2]
      exact discuss_emitted_nodup speakers [] hnd2
    · intro p q a b hpq hp hq
      rw [hlog2]
      exact discuss_emitted_complete speakers [] hnd2 p q a b hpq hp hq

def c3w_a : Presence :=
  get_presence ("ALPHA".toList, NounType.CHARACTER) IType.DISCUSS 1 1 3

def c3w_b : Presence :=
  get_presence ("BRAVO".toList, NounType.CHARACTER) IType.DISCUSS 1 1 6

def c3w_i : Interaction :=
  get_interaction c3w_a c3w_b c3w_a.whereAt IType.DISCUSS

def c3w_I : InteractionsSt :=
  { interactions := [c3w_i]
    interaction_ns := [("ALPHA".toList, [("BRAVO".toList, [(1, [c3w_i])])]),
                       ("BRAVO".toList, [("ALPHA".toList, [(1, [c3w_i])])])]
    interaction_sn := [(1, [("ALPHA".toList, [("BRAVO".toList, [c3w_i])]),
                            ("BRAVO".toList, [("ALPHA".toList, [c3w_i])])])] }

/-- Witness for C3_discuss_pairing on two concrete speakers. -/
theorem C3_discuss_pairing_witness :
    get_interaction c3w_a c3w_b c3w_a.whereAt IType.DISCUSS ∈
      c3w_I.interactions :=
  ((C3_discuss_pairing [c3w_a, c3w_b] c3w_I (by decide)).2 (by decide)).2
    0 1 c3w_a c3w_b (by decide) rfl rfl

end TSL
